import Mathlib

/-!
Verification development for the SWIM multi-window document manager
(`src/lib.rs`).  The data model and operations are shallowly embedded:
fixed arrays become total functions or lists, machine-integer arithmetic
becomes `Nat` with explicit `%`, and fallible operations return `Option`.
The storage engine, the program interpreter and the display driver are
external collaborators of the repository; they are modelled from the
spec where noted.
-/

namespace Swim

set_option maxRecDepth 100000

/-! ### Constants (src/lib.rs lines 15-44) -/

def BUFFER_WIDTH : Nat := 80
def TASK_MANAGER_WIDTH : Nat := 10
def WIN_REGION_WIDTH : Nat := BUFFER_WIDTH - TASK_MANAGER_WIDTH
def WINDOW_WIDTH : Nat := (WIN_REGION_WIDTH - 3) / 2
def WINDOW_HEIGHT : Nat := 10
def MAX_OPEN : Nat := 16
def BLOCK_SIZE : Nat := 256
def MAX_FILE_BLOCKS : Nat := 64
def MAX_FILE_BYTES : Nat := MAX_FILE_BLOCKS * BLOCK_SIZE
def MAX_FILES_STORED : Nat := 31
def MAX_FILENAME_BYTES : Nat := 10

/-- The NUL character used by the source as the unused-cell sentinel. -/
def nul : Char := Char.ofNat 0

/-- The backspace character `'\u{8}'`. -/
def backspaceChar : Char := Char.ofNat 8

/-- Modelled from the spec: `is_drawable` comes from the external display
collaborator (`pluggable_interrupt_os::vga_buffer`); the spec calls its
accepted characters the printable characters.  We take the printable
ASCII range including space. -/
def is_drawable (c : Char) : Bool := ' ' ≤ c && c ≤ '~'

/-- `safe_add` (src/lib.rs line 89): addition reduced `mod LIMIT`. -/
def safe_add (LIMIT a b : Nat) : Nat := (a + b) % LIMIT

/-- `add1` (src/lib.rs line 93). -/
def add1 (LIMIT v : Nat) : Nat := safe_add LIMIT v 1

/-- Trim NUL characters from both ends of a character list
(Rust `str::trim_matches(char::from(0))`). -/
def trimNulList (cs : List Char) : List Char :=
  ((cs.dropWhile (· = nul)).reverse.dropWhile (· = nul)).reverse

/-- Trim NUL characters from both ends of a string. -/
def trimNulStr (s : String) : String := String.mk (trimNulList s.toList)

/-- Rust `str::trim`: strip whitespace from both ends. -/
def trimWS (s : String) : String :=
  String.mk (((s.toList.dropWhile Char.isWhitespace).reverse.dropWhile Char.isWhitespace).reverse)

/-! ### External keyboard events (`pc_keyboard::DecodedKey`) -/

inductive KeyCode where
  | F1 | F2 | F3 | F4 | F5 | F6
  | ArrowUp | ArrowDown | ArrowLeft | ArrowRight
  | Other
  deriving DecidableEq, Repr

inductive DecodedKey where
  | RawKey (k : KeyCode)
  | Unicode (c : Char)
  deriving DecidableEq, Repr

/-! ### The storage collaborator

Modelled from the spec: the `file_system_solution::FileSystem` crate is not
part of this repository.  Per spec section 6 its consumed contract is
`open_create(name) -> handle | DirectoryFull`, `open_read(name) -> handle`,
`write(handle, bytes)`, `read(handle, buffer)`, `close(handle)` and
`list_directory() -> (count, names)`, with at most `MAX_FILES_STORED`
directory entries.  We model the storage as the list of
(filename, content) pairs in directory order; a handle is the index of the
open file. -/

inductive FsError where
  | DirectoryFull
  deriving DecidableEq, Repr

structure FileSystem where
  files : List (String × String)
  deriving DecidableEq, Repr

def FileSystem.new : FileSystem := ⟨[]⟩

/-- Index of a name in the directory, if present. -/
def FileSystem.findIdx (fs : FileSystem) (name : String) : Option Nat :=
  fs.files.findIdx? (fun e => e.1 = name)

/-- Modelled from the spec: `open_create` opens an existing file or creates a
new (empty) directory entry; it fails with `DirectoryFull` when the name is
absent and the directory already holds `MAX_FILES_STORED` entries. -/
def FileSystem.open_create (fs : FileSystem) (name : String) :
    Except FsError (Nat × FileSystem) :=
  match fs.findIdx name with
  | some i => Except.ok (i, fs)
  | none =>
    if fs.files.length < MAX_FILES_STORED then
      Except.ok (fs.files.length, ⟨fs.files ++ [(name, "")]⟩)
    else
      Except.error FsError.DirectoryFull

/-- Modelled from the spec: `open_read` returns a handle for an existing
name and fails otherwise. -/
def FileSystem.open_read (fs : FileSystem) (name : String) : Option Nat :=
  fs.findIdx name

/-- Modelled from the spec: `write` replaces the content of the open file. -/
def FileSystem.write (fs : FileSystem) (fd : Nat) (content : String) : FileSystem :=
  ⟨fs.files.set fd ((fs.files.getD fd ("", "")).1, content)⟩

/-- Modelled from the spec: `read` yields the content of the open file. -/
def FileSystem.read (fs : FileSystem) (fd : Nat) : String :=
  (fs.files.getD fd ("", "")).2

/-- Modelled from the spec: `close` releases the handle; with handles as
directory indices it does not change the stored data. -/
def FileSystem.close (fs : FileSystem) (_fd : Nat) : FileSystem := fs

/-- Modelled from the spec: `list_directory` returns the entry count and the
stored names in directory order. -/
def FileSystem.list_directory (fs : FileSystem) : Nat × List String :=
  (fs.files.length, fs.files.map (·.1))

/-- Reading a whole file by name: `open_read` then `read`. -/
def FileSystem.readFile (fs : FileSystem) (name : String) : Option String :=
  (fs.open_read name).map fs.read

/-! ### The interpreter collaborator

Modelled from the spec: the `simple_interp` crate is not part of this
repository.  A handle is constructed from source text; each scheduled tick
reports `Continuing`, `Finished` or `AwaitInput`.  The result of a tick is
an oracle input to the embedded step functions. -/

structure Interpreter where
  source : String
  deriving DecidableEq, Repr

def Interpreter.new (source : String) : Interpreter := ⟨source⟩

inductive TickStatus where
  | Continuing | Finished | AwaitInput
  deriving DecidableEq, Repr

/-! ### Window state machine (src/lib.rs lines 80-87) -/

inductive WindowStatus where
  | DisplayingFiles
  | EditingFile
  | ExecutingFile
  | AwaitingInput
  | DisplayingOutput
  deriving DecidableEq, Repr

/-! ### SwimDocument (src/lib.rs lines 60-78)

The `[[char; WINDOW_WIDTH]; WINDOW_HEIGHT]` grid becomes the total
function `letters`; indices outside the grid are never written by the
embedded operations.  `ArrayString` pending input becomes a character
list. -/

structure SwimDocument where
  letters : Nat → Nat → Char
  num_letters : Nat
  next_letter : Nat
  start_col : Nat
  start_row : Nat
  current_row : Nat
  cursor_position : Nat
  active : Bool
  file_system : FileSystem
  window_status : WindowStatus
  active_file : Nat
  program_running : Bool
  output_line : Nat
  array_string : List Char
  current_editing_file : Nat → Char
  current_editing_file_len : Nat
  input_row : Nat

/-- Write one grid cell. -/
def setCell (g : Nat → Nat → Char) (r c : Nat) (ch : Char) : Nat → Nat → Char :=
  fun r' c' => if r' = r ∧ c' = c then ch else g r' c'

/-- Loop body of `get_line_length` (src/lib.rs lines 639-648): count
consecutive non-NUL cells from column `i`, with at most `fuel` iterations
remaining. -/
def lineLenGo (letters : Nat → Nat → Char) (row : Nat) : Nat → Nat → Nat
  | 0, _ => 0
  | fuel + 1, i => if letters row i = nul then 0 else 1 + lineLenGo letters row fuel (i + 1)

/-- `get_line_length` (src/lib.rs lines 639-648): the length of the row up
to the first NUL sentinel, scanning at most `WINDOW_WIDTH` columns. -/
def SwimDocument.get_line_length (doc : SwimDocument) (row : Nat) : Nat :=
  lineLenGo doc.letters row WINDOW_WIDTH 0

/-- `is_line_empty` (src/lib.rs lines 650-652). -/
def SwimDocument.is_line_empty (doc : SwimDocument) (row : Nat) : Bool :=
  doc.letters row 0 == nul

/-- `start_new_line` (src/lib.rs lines 630-637); the plot calls are
display-only. -/
def SwimDocument.start_new_line (doc : SwimDocument) (offset : Nat) : SwimDocument :=
  { doc with current_row := (doc.current_row + 1) % (WINDOW_HEIGHT - offset),
             cursor_position := 0,
             num_letters := 0,
             next_letter := 0 }

/-- `handle_unicode` (src/lib.rs lines 764-812).  The `clear_line` /
`draw_current` calls are display-only and the `ArrayString` composed on
newline is embedded as the list of the first `num_letters` characters of
the input row. -/
def SwimDocument.handle_unicode (doc : SwimDocument) (key : Char) : SwimDocument :=
  if key = '\n' then
    if doc.window_status = WindowStatus.AwaitingInput then
      let input_string := (List.range doc.num_letters).map (fun i => doc.letters doc.input_row i)
      { doc with cursor_position := 0,
                 num_letters := 0,
                 next_letter := 0,
                 window_status := WindowStatus.ExecutingFile,
                 program_running := true,
                 array_string := input_string }
    else
      doc.start_new_line 0
  else if key = backspaceChar then
    if doc.cursor_position > 0 then
      let row_to_use := if doc.window_status = WindowStatus.AwaitingInput then doc.input_row else doc.current_row
      let shifted : Nat → Nat → Char := fun r c =>
        if r = row_to_use ∧ doc.cursor_position - 1 ≤ c ∧ c < doc.num_letters - 1 then
          doc.letters r (c + 1)
        else
          doc.letters r c
      { doc with letters := setCell shifted row_to_use (doc.num_letters - 1) nul,
                 num_letters := doc.num_letters - 1,
                 next_letter := doc.num_letters - 1,
                 cursor_position := doc.cursor_position - 1 }
    else doc
  else if is_drawable key then
    let row_to_use := if doc.window_status = WindowStatus.AwaitingInput then doc.input_row else doc.current_row
    { doc with letters := setCell doc.letters row_to_use doc.cursor_position key,
               next_letter := min (add1 WINDOW_WIDTH doc.next_letter) (WINDOW_WIDTH - 1),
               num_letters := min (doc.num_letters + 1) WINDOW_WIDTH,
               cursor_position := min (add1 WINDOW_WIDTH doc.cursor_position) (WINDOW_WIDTH - 1) }
  else doc

/-- `SwimDocument::key` (src/lib.rs lines 674-762); plot calls are
display-only. -/
def SwimDocument.key (doc : SwimDocument) (k : DecodedKey) : SwimDocument :=
  match k with
  | DecodedKey.RawKey KeyCode.ArrowUp =>
    if !doc.active then doc
    else if doc.window_status = WindowStatus.EditingFile then
      if doc.current_row > 0 then
        { doc with current_row := doc.current_row - 1,
                   cursor_position := min doc.cursor_position (doc.get_line_length (doc.current_row - 1)),
                   num_letters := doc.get_line_length (doc.current_row - 1),
                   next_letter := doc.get_line_length (doc.current_row - 1) }
      else doc
    else doc
  | DecodedKey.RawKey KeyCode.ArrowDown =>
    if !doc.active then doc
    else if doc.window_status = WindowStatus.EditingFile then
      if doc.current_row < WINDOW_HEIGHT - 1 ∧ ¬ (doc.is_line_empty (doc.current_row + 1) = true) then
        { doc with current_row := doc.current_row + 1,
                   cursor_position := min doc.cursor_position (doc.get_line_length (doc.current_row + 1)),
                   num_letters := doc.get_line_length (doc.current_row + 1),
                   next_letter := doc.get_line_length (doc.current_row + 1) }
      else doc
    else doc
  | DecodedKey.RawKey KeyCode.ArrowLeft =>
    if !doc.active then doc
    else if doc.window_status = WindowStatus.DisplayingFiles then
      if doc.active_file > 0 then { doc with active_file := doc.active_file - 1 } else doc
    else if doc.window_status = WindowStatus.EditingFile then
      if doc.cursor_position > 0 then { doc with cursor_position := doc.cursor_position - 1 } else doc
    else doc
  | DecodedKey.RawKey KeyCode.ArrowRight =>
    if !doc.active then doc
    else if doc.window_status = WindowStatus.DisplayingFiles then
      let num_files := (doc.file_system.list_directory).1
      if doc.active_file < num_files - 1 then { doc with active_file := doc.active_file + 1 } else doc
    else if doc.window_status = WindowStatus.EditingFile then
      if doc.cursor_position < doc.num_letters then { doc with cursor_position := doc.cursor_position + 1 } else doc
    else doc
  | DecodedKey.Unicode c =>
    if doc.window_status = WindowStatus.AwaitingInput ∨ doc.window_status = WindowStatus.EditingFile then
      doc.handle_unicode c
    else doc
  | DecodedKey.RawKey _ => doc

/-- `SwimDocument::tick` (src/lib.rs lines 514-550).  The interpreter's own
step is external; its reported `TickStatus` is the oracle argument
`result`.  `provide_input` consumes the pending input string. -/
def SwimDocument.tick (doc : SwimDocument) (interpreter : Option Interpreter)
    (result : TickStatus) : SwimDocument × Option Interpreter :=
  let step :=
    if doc.window_status = WindowStatus.ExecutingFile then
      match interpreter with
      | some _ =>
        let doc := if doc.array_string ≠ [] then { doc with array_string := [] } else doc
        match result with
        | TickStatus.Continuing => (doc, interpreter)
        | TickStatus.Finished =>
          ({ doc with window_status := WindowStatus.DisplayingOutput,
                      program_running := false }, none)
        | TickStatus.AwaitInput =>
          ({ doc with window_status := WindowStatus.AwaitingInput,
                      current_row := 0,
                      cursor_position := 0,
                      num_letters := 0,
                      next_letter := 0 }, interpreter)
      | none => (doc, interpreter)
    else (doc, interpreter)
  if step.1.window_status = WindowStatus.AwaitingInput then
    ({ step.1 with output_line := 0 }, step.2)
  else step

/-! ### Interpreter output sink (src/lib.rs lines 408-422)

`print` writes to the window's region of the character-cell display.  We
carry the window's `WINDOW_HEIGHT` content rows alongside the document:
`clear_line` blanks a row and `plot_str` writes the line's text at the
start of a just-cleared row, so a row is represented by the string it
shows. -/

def SwimDocument.printLine (doc : SwimDocument) (disp : Nat → String) (chars : String) :
    SwimDocument × (Nat → String) :=
  let output := trimWS chars
  let scrolled :=
    if WINDOW_HEIGHT ≤ doc.output_line then
      ((fun r => if r < WINDOW_HEIGHT - 1 then "" else disp r), WINDOW_HEIGHT - 1)
    else (disp, doc.output_line)
  ({ doc with output_line := scrolled.2 + 1 },
   fun r => if r = scrolled.2 then output else scrolled.1 r)

/-! ### SwimDocManager (src/lib.rs lines 46-58)

The `[SwimDocument; 4]` array and the interpreter slots become total
functions on `Fin 4`. -/

structure SwimDocManager where
  documents : Fin 4 → SwimDocument
  interpreters : Fin 4 → Option Interpreter
  active_window : Fin 4
  f1_ticks : Nat
  f2_ticks : Nat
  f3_ticks : Nat
  f4_ticks : Nat
  next_tick : Nat
  creating_file : Bool
  new_filename : Nat → Char
  new_filename_length : Nat

/-- The per-window CPU-tick counter selected by window index, as read by
`draw_program_ticks`. -/
def ticksOf (m : SwimDocManager) (i : Fin 4) : Nat :=
  if i.val = 0 then m.f1_ticks
  else if i.val = 1 then m.f2_ticks
  else if i.val = 2 then m.f3_ticks
  else m.f4_ticks

/-- The `match doc_to_tick` counter increment inside `update`
(src/lib.rs lines 151-157). -/
def incTick (m : SwimDocManager) (i : Fin 4) : SwimDocManager :=
  if i.val = 0 then { m with f1_ticks := m.f1_ticks + 1 }
  else if i.val = 1 then { m with f2_ticks := m.f2_ticks + 1 }
  else if i.val = 2 then { m with f3_ticks := m.f3_ticks + 1 }
  else if i.val = 3 then { m with f4_ticks := m.f4_ticks + 1 }
  else m

/-- The `running_programs` collection built by `update`
(src/lib.rs lines 138-148): window indices with a running program whose
status is not `AwaitingInput`, in index order. -/
def runnableOf (docs : Fin 4 → SwimDocument) : List (Fin 4) :=
  (List.finRange 4).filter
    (fun i => (docs i).program_running && !(decide ((docs i).window_status = WindowStatus.AwaitingInput)))

/-- The per-cycle refresh of the `active` highlight flags
(src/lib.rs line 128): `documents[i].active = i == active_window`. -/
def activeSet (m : SwimDocManager) : Fin 4 → SwimDocument :=
  fun i => { m.documents i with active := decide (i = m.active_window) }

/-- `SwimDocManager::update` (src/lib.rs lines 119-162).  Rendering
(modal echo, outlines, directory listings, input echo, tick display) is
display-only; the interpreter's reported status for the ticked window is
the oracle argument `result`. -/
def SwimDocManager.update (m : SwimDocManager) (result : TickStatus) : SwimDocManager :=
  let docs := activeSet m
  let running := runnableOf docs
  let count := running.length
  if 0 < count then
    let doc_to_tick : Fin 4 := running.getD (m.next_tick % count) 0
    let m1 := incTick { m with documents := docs } doc_to_tick
    let td := (docs doc_to_tick).tick (m.interpreters doc_to_tick) result
    { m1 with documents := Function.update docs doc_to_tick td.1,
              interpreters := Function.update m.interpreters doc_to_tick td.2,
              next_tick := (m.next_tick + 1) % count }
  else
    { m with documents := docs }

/-- Loop of the modal newline branch (src/lib.rs lines 366-376): attempt
`open_create` then `close` in each window's storage in order; the first
failure aborts the traversal (early `return`), keeping the creations
already performed.  The `Bool` result is `true` when every window
succeeded. -/
def createLoop (docs : Fin 4 → SwimDocument) (filename : String) :
    List (Fin 4) → (Fin 4 → SwimDocument) × Bool
  | [] => (docs, true)
  | i :: rest =>
    match (docs i).file_system.open_create filename with
    | Except.error _ => (docs, false)
    | Except.ok fdfs =>
      createLoop (Function.update docs i { docs i with file_system := fdfs.2.close fdfs.1 }) filename rest

/-- `SwimDocManager::file_creation_input` (src/lib.rs lines 357-405).
The second component is the status-line message plotted by the handler
(`"Too many files!"` on a failed creation); all other plot calls are
display-only echoes of the modal state. -/
def SwimDocManager.file_creation_input (m : SwimDocManager) (k : DecodedKey) :
    SwimDocManager × Option String :=
  match k with
  | DecodedKey.Unicode c =>
    if c = '\n' then
      if m.new_filename_length > 0 then
        let filename := String.mk ((List.range m.new_filename_length).map m.new_filename)
        let res := createLoop m.documents filename (List.finRange 4)
        if res.2 then
          ({ m with documents := res.1, creating_file := false }, none)
        else
          ({ m with documents := res.1 }, some "Too many files!")
      else (m, none)
    else if c = backspaceChar then
      if m.new_filename_length > 0 then
        let len := m.new_filename_length - 1
        ({ m with new_filename_length := len,
                  new_filename := fun i => if i = len then nul else m.new_filename i }, none)
      else (m, none)
    else
      if is_drawable c = true ∧ m.new_filename_length < MAX_FILENAME_BYTES - 1 then
        ({ m with new_filename := fun i => if i = m.new_filename_length then c else m.new_filename i,
                  new_filename_length := m.new_filename_length + 1 }, none)
      else (m, none)
  | DecodedKey.RawKey _ => (m, none)

/-- Serialization loop of the F6 branch (src/lib.rs lines 197-218): append
each non-empty row's characters while the buffer position stays below
`MAX_FILE_BYTES - 2`, inserting a newline when a later non-empty row
exists. -/
def serLoop (doc : SwimDocument) : List Nat → List Char → List Char
  | [], buf => buf
  | row :: rest, buf =>
    if doc.is_line_empty row then serLoop doc rest buf
    else
      let lineChars := (List.range (doc.get_line_length row)).map (fun c => doc.letters row c)
      let buf1 := buf ++ lineChars.take (MAX_FILE_BYTES - 2 - buf.length)
      let buf2 :=
        if buf1.length < MAX_FILE_BYTES - 2 then
          if (List.range' (row + 1) (WINDOW_HEIGHT - (row + 1))).any (fun r => !(doc.is_line_empty r)) then
            buf1 ++ ['\n']
          else buf1
        else buf1
      serLoop doc rest buf2

/-- The buffer serialized by the F6 branch from a window's non-empty
rows. -/
def serializeDoc (doc : SwimDocument) : List Char :=
  serLoop doc (List.range WINDOW_HEIGHT) []

/-- The broadcast save of the F6 branch (src/lib.rs lines 224-234):
`open_create` / `write` / `close` the serialized content into every
window's storage, silently skipping a window whose `open_create` fails. -/
def saveAll (docs : Fin 4 → SwimDocument) (filename : String) (content : String) :
    Fin 4 → SwimDocument :=
  fun i =>
    match (docs i).file_system.open_create filename with
    | Except.ok fdfs =>
      { docs i with file_system := (fdfs.2.write fdfs.1 content).close fdfs.1 }
    | Except.error _ => docs i

/-- The filename recorded by the editor, as recovered in the F6 branch
(bytes `0..current_editing_file_len`, NUL-trimmed). -/
def savedFilename (doc : SwimDocument) : String :=
  trimNulStr (String.mk ((List.range doc.current_editing_file_len).map doc.current_editing_file))

/-- The F6 branch of `SwimDocManager::key` (src/lib.rs lines 182-235):
serialize the active editor's buffer when it is editing a known file,
always clear the window and return it to `DisplayingFiles`, then
broadcast-save.  `clear_window` is display-only. -/
def keyF6 (m : SwimDocManager) : SwimDocManager :=
  let active_doc := m.documents m.active_window
  let save := active_doc.window_status = WindowStatus.EditingFile ∧ 0 < active_doc.current_editing_file_len
  let buffer := serializeDoc active_doc
  let cleared := { active_doc with program_running := false,
                                   window_status := WindowStatus.DisplayingFiles }
  let docs1 := Function.update m.documents m.active_window cleared
  if save then
    { m with documents := saveAll docs1 (savedFilename active_doc) (String.mk buffer) }
  else
    { m with documents := docs1 }

/-- The file-loading loop of the `'e'` branch (src/lib.rs lines 266-289):
walk the file's characters filling the grid from `(row, col)`, starting a
new row on each newline (stopping when the grid height is passed) and
dropping characters beyond the row width.  Returns the grid and the final
`(row, col)`. -/
def loadLoop (g : Nat → Nat → Char) (row col : Nat) :
    List Char → (Nat → Nat → Char) × Nat × Nat
  | [] => (g, row, col)
  | c :: rest =>
    if c = '\n' then
      if WINDOW_HEIGHT ≤ row + 1 then (g, row + 1, 0)
      else loadLoop g (row + 1) 0 rest
    else if is_drawable c then
      if col < WINDOW_WIDTH then loadLoop (setCell g row col c) row (col + 1) rest
      else loadLoop g row col rest
    else loadLoop g row col rest

/-- The `'e'` branch of `SwimDocManager::key` (src/lib.rs lines 239-310):
record the highlighted filename, read the file, switch to `EditingFile`,
zero the grid and load the content.  `none` models the `unwrap` panic on
a failing `open_read`.  The branch returns early from `key`. -/
def keyE (m : SwimDocManager) : Option SwimDocManager :=
  let active_doc := m.documents m.active_window
  if active_doc.window_status ≠ WindowStatus.DisplayingFiles then some m
  else
    let files := (active_doc.file_system.list_directory).2
    let entry := files.getD active_doc.active_file ""
    let cefList := entry.toList.takeWhile (fun b => b ≠ nul)
    let doc1 := { active_doc with current_editing_file := fun i => cefList.getD i nul,
                                  current_editing_file_len := cefList.length }
    let file_name := trimNulStr (String.mk cefList)
    match doc1.file_system.open_read file_name with
    | none => none
    | some fd =>
      let file_content := trimNulStr (doc1.file_system.read fd)
      let doc2 := { doc1 with window_status := WindowStatus.EditingFile,
                              letters := fun _ _ => nul }
      let lc := loadLoop doc2.letters 0 0 file_content.toList
      let doc3 := { doc2 with letters := lc.1,
                              current_row := 0,
                              cursor_position := 0,
                              num_letters := lc.2.2,
                              next_letter := lc.2.2 }
      some { m with documents := Function.update m.documents m.active_window doc3 }

/-- The `'r'` branch of `SwimDocManager::key` (src/lib.rs lines 311-338):
read the highlighted file and start an interpreter on it.  The `Bool`
component records an early `return` from `key`; the `DisplayingOutput`
dismissal nested here is kept as in the source although its guard makes
it unreachable. -/
def keyR (m : SwimDocManager) : Option (SwimDocManager × Bool) :=
  let active_doc := m.documents m.active_window
  if active_doc.window_status ≠ WindowStatus.DisplayingFiles then some (m, true)
  else if active_doc.window_status = WindowStatus.DisplayingOutput then
    let doc1 := { active_doc with program_running := false,
                                  window_status := WindowStatus.DisplayingFiles }
    some ({ m with documents := Function.update m.documents m.active_window doc1 }, true)
  else
    let files := (active_doc.file_system.list_directory).2
    let file_name := trimWS (trimNulStr (files.getD active_doc.active_file ""))
    match active_doc.file_system.open_read file_name with
    | none => none
    | some fd =>
      let file := trimNulStr (active_doc.file_system.read fd)
      let doc1 := { active_doc with window_status := WindowStatus.ExecutingFile,
                                    output_line := 0,
                                    current_row := 0,
                                    cursor_position := 0,
                                    num_letters := 0,
                                    next_letter := 0,
                                    program_running := true }
      some ({ m with documents := Function.update m.documents m.active_window doc1,
                     interpreters := Function.update m.interpreters m.active_window
                       (some (Interpreter.new file)) }, false)

/-- `SwimDocManager::key` (src/lib.rs lines 164-344).  When the modal is
open all input is routed to `file_creation_input`; otherwise the manager
handles its own key matches and then forwards the key to the active
window (line 343) unless a branch returned early.  `none` models an
`unwrap` panic. -/
def SwimDocManager.key (m : SwimDocManager) (k : DecodedKey) : Option SwimDocManager :=
  if m.creating_file then
    some (m.file_creation_input k).1
  else
    let step : Option (SwimDocManager × Bool) :=
      match k with
      | DecodedKey.RawKey KeyCode.F1 => some ({ m with active_window := 0 }, false)
      | DecodedKey.RawKey KeyCode.F2 => some ({ m with active_window := 1 }, false)
      | DecodedKey.RawKey KeyCode.F3 => some ({ m with active_window := 2 }, false)
      | DecodedKey.RawKey KeyCode.F4 => some ({ m with active_window := 3 }, false)
      | DecodedKey.RawKey KeyCode.F5 =>
        some ({ m with creating_file := true,
                       new_filename := fun _ => nul,
                       new_filename_length := 0 }, false)
      | DecodedKey.RawKey KeyCode.F6 => some (keyF6 m, false)
      | DecodedKey.Unicode c =>
        if (m.documents m.active_window).window_status = WindowStatus.DisplayingFiles then
          if c = 'e' then (keyE m).map (fun m' => (m', true))
          else if c = 'r' then keyR m
          else some (m, false)
        else some (m, false)
      | DecodedKey.RawKey _ => some (m, false)
    match step with
    | none => none
    | some (m1, early) =>
      if early then some m1
      else
        let docs2 := Function.update m1.documents m1.active_window ((m1.documents m1.active_window).key k)
        some { m1 with documents := docs2 }

/-! ### Startup (src/lib.rs lines 97-116 and 424-488) -/

/-- Source text of the `hello` fixture program. -/
def hello_source : String := "print(\"Hello, world!\")"

/-- Source text of the `nums` fixture program. -/
def nums_source : String := "print(1)\nprint(257)"

/-- Source text of the `average` fixture program. -/
def average_source : String :=
  "sum := 0\ncount := 0\naveraging := true\nwhile averaging \x7b\n    num := input(\"Enter a number:\")\n    if (num == \"quit\") \x7b\n        averaging := false\n    \x7d else \x7b\n        sum := (sum + num)\n        count := (count + 1)\n    \x7d\n\x7d\nprint((sum / count))"

/-- Source text of the `pi` fixture program. -/
def pi_source : String :=
  "sum := 0\ni := 0\nneg := false\nterms := input(\"Num terms:\")\nwhile (i < terms) \x7b\n    term := (1.0 / ((2.0 * i) + 1.0))\n    if neg \x7b\n        term := -term\n    \x7d\n    sum := (sum + term)\n    neg := not neg\n    i := (i + 1)\n\x7d\nprint((4 * sum))"

/-- One `open_create` / `write` / `close` round of `create_default_files`;
the `unwrap`ed creation cannot fail on the freshly built storage, so a
failure leaves the storage unchanged. -/
def createWrite (fs : FileSystem) (name content : String) : FileSystem :=
  match fs.open_create name with
  | Except.ok fdfs => ((fdfs.2.write fdfs.1 content).close fdfs.1)
  | Except.error _ => fs

/-- `create_default_files` (src/lib.rs lines 449-488) applied to a fresh
storage. -/
def default_file_system : FileSystem :=
  createWrite (createWrite (createWrite (createWrite FileSystem.new
    "hello" hello_source) "nums" nums_source) "average" average_source) "pi" pi_source

/-- `SwimDocument::new` (src/lib.rs lines 425-447). -/
def SwimDocument.new (start_col start_row : Nat) : SwimDocument :=
  { letters := fun _ _ => nul,
    num_letters := 0,
    next_letter := 0,
    start_col := start_col,
    start_row := start_row,
    current_row := 0,
    cursor_position := 0,
    active := false,
    file_system := default_file_system,
    window_status := WindowStatus.DisplayingFiles,
    active_file := 0,
    program_running := false,
    output_line := 0,
    array_string := [],
    current_editing_file := fun _ => nul,
    current_editing_file_len := 0,
    input_row := 0 }

/-- `SwimDocManager::default` (src/lib.rs lines 97-116). -/
def SwimDocManager.default : SwimDocManager :=
  { documents := ![SwimDocument.new 1 2, SwimDocument.new 36 2,
                   SwimDocument.new 1 14, SwimDocument.new 36 14],
    interpreters := fun _ => none,
    active_window := 0,
    f1_ticks := 0,
    f2_ticks := 0,
    f3_ticks := 0,
    f4_ticks := 0,
    next_tick := 0,
    creating_file := false,
    new_filename := fun _ => nul,
    new_filename_length := 0 }

/-- The states reachable from startup by any sequence of keyboard events
and update cycles (interpreter tick results chosen arbitrarily). -/
inductive Reachable : SwimDocManager → Prop where
  | init : Reachable SwimDocManager.default
  | key {m m' : SwimDocManager} {k : DecodedKey} :
      Reachable m → m.key k = some m' → Reachable m'
  | update {m : SwimDocManager} (r : TickStatus) :
      Reachable m → Reachable (m.update r)

/-! ### Helper lemmas -/

theorem WINDOW_WIDTH_eq : WINDOW_WIDTH = 33 := rfl

theorem WINDOW_HEIGHT_eq : WINDOW_HEIGHT = 10 := rfl

theorem lineLenGo_le (L : Nat → Nat → Char) (row : Nat) :
    ∀ fuel i, lineLenGo L row fuel i ≤ fuel := by
  intro fuel
  induction fuel with
  | zero => intro i; simp [lineLenGo]
  | succ n ih =>
    intro i
    simp only [lineLenGo]
    split
    · omega
    · have := ih (i + 1)
      omega

theorem get_line_length_le (doc : SwimDocument) (row : Nat) :
    doc.get_line_length row ≤ WINDOW_WIDTH :=
  lineLenGo_le doc.letters row WINDOW_WIDTH 0

/-! ### C1: the editing cursor invariant -/

/-- The inequality of the claim: `0 ≤ cursor_position` is implicit in the
`Nat` representation of the `usize` fields. -/
abbrev editInv (doc : SwimDocument) : Prop :=
  doc.cursor_position ≤ doc.num_letters ∧ doc.num_letters ≤ WINDOW_WIDTH

theorem handle_unicode_editInv (doc : SwimDocument) (c : Char) (h : editInv doc) :
    editInv (doc.handle_unicode c) := by
  obtain ⟨h1, h2⟩ := h
  unfold SwimDocument.handle_unicode
  split
  · split
    · exact ⟨Nat.le_refl 0, by simp [WINDOW_WIDTH_eq]⟩
    · exact ⟨Nat.le_refl 0, by simp [SwimDocument.start_new_line, WINDOW_WIDTH_eq]⟩
  · split
    · split
      · refine ⟨?_, ?_⟩ <;> simp only [] <;> omega
      · exact ⟨h1, h2⟩
    · split
      · refine ⟨?_, ?_⟩ <;>
          simp only [add1, safe_add, WINDOW_WIDTH_eq] at * <;> omega
      · exact ⟨h1, h2⟩

theorem key_editInv (doc : SwimDocument) (k : DecodedKey) (h : editInv doc) :
    editInv (doc.key k) := by
  obtain ⟨h1, h2⟩ := h
  have hll : ∀ r, doc.get_line_length r ≤ WINDOW_WIDTH := get_line_length_le doc
  cases k with
  | Unicode c =>
    simp only [SwimDocument.key]
    split
    · exact handle_unicode_editInv doc c ⟨h1, h2⟩
    · exact ⟨h1, h2⟩
  | RawKey kc =>
    cases kc <;> simp only [SwimDocument.key] <;>
      first
      | exact ⟨h1, h2⟩
      | (split_ifs <;> refine ⟨?_, ?_⟩ <;> (try dsimp only) <;>
          first
            | exact Nat.min_le_right _ _
            | exact hll _
            | omega)

/-- C1: For every sequence of edit events (printable keys, backspace,
newline, arrow keys) delivered to a window in `EditingFile` or
`AwaitingInput` status, `0 ≤ cursor_position ≤ num_letters ≤ WINDOW_WIDTH`
holds on that window after every event.  We prove the invariant is
preserved by every key event (in any window status, which subsumes the
claimed statuses), hence it holds after every prefix of any event
sequence; `0 ≤ cursor_position` is automatic for the `Nat` embedding of
`usize`. -/
theorem c1_cursor_invariant (doc : SwimDocument) (ks : List DecodedKey)
    (h : editInv doc) : editInv (ks.foldl SwimDocument.key doc) := by
  induction ks generalizing doc with
  | nil => exact h
  | cons k ks ih => exact ih _ (key_editInv doc k h)

/-- A window freshly opened for editing, used as a concrete instance. -/
def c1Doc : SwimDocument :=
  { SwimDocument.new 1 2 with window_status := WindowStatus.EditingFile, active := true }

theorem c1_cursor_invariant_witness :
    editInv c1Doc ∧
      editInv (([DecodedKey.Unicode 'h', DecodedKey.Unicode 'i',
                 DecodedKey.RawKey KeyCode.ArrowLeft, DecodedKey.Unicode backspaceChar,
                 DecodedKey.Unicode '\n', DecodedKey.Unicode 'x']).foldl SwimDocument.key c1Doc) :=
  ⟨by decide, c1_cursor_invariant c1Doc _ (by decide)⟩

/-! ### C2 and C10: typing behavior of `handle_unicode` -/

theorem is_drawable_ne_newline {c : Char} (h : is_drawable c = true) : c ≠ '\n' := by
  intro hc
  subst hc
  exact absurd h (by decide)

theorem is_drawable_ne_backspace {c : Char} (h : is_drawable c = true) : c ≠ backspaceChar := by
  intro hc
  subst hc
  exact absurd h (by decide)

/-- On a drawable key, `handle_unicode` reduces to its printable branch. -/
theorem handle_unicode_drawable (doc : SwimDocument) (c : Char) (h : is_drawable c = true) :
    doc.handle_unicode c =
      { doc with
        letters := setCell doc.letters
          (if doc.window_status = WindowStatus.AwaitingInput then doc.input_row else doc.current_row)
          doc.cursor_position c,
        next_letter := min (add1 WINDOW_WIDTH doc.next_letter) (WINDOW_WIDTH - 1),
        num_letters := min (doc.num_letters + 1) WINDOW_WIDTH,
        cursor_position := min (add1 WINDOW_WIDTH doc.cursor_position) (WINDOW_WIDTH - 1) } := by
  rw [SwimDocument.handle_unicode, if_neg (is_drawable_ne_newline h),
      if_neg (is_drawable_ne_backspace h), if_pos h]

/-- A full current row reached by typing `WINDOW_WIDTH` characters into a
fresh editor row. -/
def c2FullRowDoc : SwimDocument :=
  (List.replicate 33 'a').foldl SwimDocument.handle_unicode c1Doc

/-- C2 counterexample: on a window in `EditingFile` status whose current
row holds `WINDOW_WIDTH` characters, typing the printable character `'Z'`
does NOT start a new row holding `'Z'` as its sole first character with
the full row intact: it stays on the same row and overwrites its first
character. -/
theorem c2_counterexample :
    c2FullRowDoc.window_status = WindowStatus.EditingFile ∧
    c2FullRowDoc.get_line_length c2FullRowDoc.current_row = WINDOW_WIDTH ∧
    c2FullRowDoc.num_letters = WINDOW_WIDTH ∧
    is_drawable 'Z' = true ∧
    ¬ ((c2FullRowDoc.handle_unicode 'Z').current_row = c2FullRowDoc.current_row + 1 ∧
       (c2FullRowDoc.handle_unicode 'Z').letters (c2FullRowDoc.current_row + 1) 0 = 'Z' ∧
       ∀ col < WINDOW_WIDTH,
         (c2FullRowDoc.handle_unicode 'Z').letters c2FullRowDoc.current_row col = 'a') := by
  decide

/-- C2 amended: typing one more printable character on a window in
`EditingFile` status whose current row already holds `WINDOW_WIDTH`
characters does not start a new row.  The cursor, having wrapped to
column 0 while the row filled, makes the character overwrite the row's
first cell; `num_letters` stays `WINDOW_WIDTH`, the row index is
unchanged and every other cell is untouched. -/
theorem c2_overflow_overwrites_in_place (doc : SwimDocument) (c : Char)
    (hstatus : doc.window_status = WindowStatus.EditingFile)
    (hfull : doc.num_letters = WINDOW_WIDTH)
    (hcur : doc.cursor_position = 0)
    (hdraw : is_drawable c = true) :
    (doc.handle_unicode c).current_row = doc.current_row ∧
    (doc.handle_unicode c).num_letters = WINDOW_WIDTH ∧
    (doc.handle_unicode c).letters doc.current_row 0 = c ∧
    ∀ r col, ¬ (r = doc.current_row ∧ col = 0) →
      (doc.handle_unicode c).letters r col = doc.letters r col := by
  rw [handle_unicode_drawable doc c hdraw]
  have hne : doc.window_status ≠ WindowStatus.AwaitingInput := by
    rw [hstatus]; intro hh; cases hh
  refine ⟨rfl, ?_, ?_, ?_⟩
  · dsimp only
    rw [hfull]
    decide
  · dsimp only
    rw [if_neg hne, hcur, setCell, if_pos ⟨rfl, rfl⟩]
  · intro r col hrc
    dsimp only
    rw [if_neg hne, hcur, setCell, if_neg hrc]

theorem c2_overflow_overwrites_in_place_witness :
    (c2FullRowDoc.window_status = WindowStatus.EditingFile ∧
     c2FullRowDoc.num_letters = WINDOW_WIDTH ∧
     c2FullRowDoc.cursor_position = 0 ∧
     is_drawable 'Z' = true) ∧
    ((c2FullRowDoc.handle_unicode 'Z').current_row = c2FullRowDoc.current_row ∧
     (c2FullRowDoc.handle_unicode 'Z').num_letters = WINDOW_WIDTH ∧
     (c2FullRowDoc.handle_unicode 'Z').letters c2FullRowDoc.current_row 0 = 'Z' ∧
     ∀ r col, ¬ (r = c2FullRowDoc.current_row ∧ col = 0) →
       (c2FullRowDoc.handle_unicode 'Z').letters r col = c2FullRowDoc.letters r col) :=
  ⟨by refine ⟨by decide, by decide, by decide, by decide⟩,
   c2_overflow_overwrites_in_place c2FullRowDoc 'Z' (by decide) (by decide) (by decide) (by decide)⟩

/-- If a row has the NUL sentinel at column `n`, the scanned line length
cannot pass `n`. -/
theorem lineLenGo_le_of_nul (L : Nat → Nat → Char) (row n : Nat) (hnul : L row n = nul) :
    ∀ fuel i, i ≤ n → n < i + fuel → lineLenGo L row fuel i ≤ n - i := by
  intro fuel
  induction fuel with
  | zero => intro i h1 h2; omega
  | succ m ih =>
    intro i h1 h2
    simp only [lineLenGo]
    split
    · omega
    · rename_i hne
      have hin : i ≠ n := by intro hh; subst hh; exact hne hnul
      have := ih (i + 1) (by omega) (by omega)
      omega

/-- C10: in `EditingFile` status, typing a printable character with the
cursor strictly before the end of the line overwrites the cell at the
cursor (no tail shift: every other cell is unchanged), yet `num_letters`
is still incremented, so `num_letters` exceeds the characters actually
stored in the row (its scanned line length). -/
theorem c10_midline_typing_overwrites (doc : SwimDocument) (c : Char)
    (hstatus : doc.window_status = WindowStatus.EditingFile)
    (hdraw : is_drawable c = true)
    (hcur : doc.cursor_position < doc.num_letters)
    (hnum : doc.num_letters < WINDOW_WIDTH)
    (hnul : doc.letters doc.current_row doc.num_letters = nul) :
    (doc.handle_unicode c).letters doc.current_row doc.cursor_position = c ∧
    (∀ r col, ¬ (r = doc.current_row ∧ col = doc.cursor_position) →
       (doc.handle_unicode c).letters r col = doc.letters r col) ∧
    (doc.handle_unicode c).num_letters = doc.num_letters + 1 ∧
    (doc.handle_unicode c).get_line_length doc.current_row <
      (doc.handle_unicode c).num_letters := by
  rw [handle_unicode_drawable doc c hdraw]
  have hne : doc.window_status ≠ WindowStatus.AwaitingInput := by
    rw [hstatus]; intro hh; cases hh
  have hnum' : min (doc.num_letters + 1) WINDOW_WIDTH = doc.num_letters + 1 := by
    rw [WINDOW_WIDTH_eq] at *; omega
  refine ⟨?_, ?_, ?_, ?_⟩
  · dsimp only
    rw [if_neg hne, setCell, if_pos ⟨rfl, rfl⟩]
  · intro r col hrc
    dsimp only
    rw [if_neg hne, setCell, if_neg hrc]
  · dsimp only
    exact hnum'
  · dsimp only
    rw [if_neg hne, hnum']
    have hkeep : setCell doc.letters doc.current_row doc.cursor_position c
        doc.current_row doc.num_letters = nul := by
      rw [setCell, if_neg ?_, hnul]
      intro hh
      omega
    have := lineLenGo_le_of_nul
      (setCell doc.letters doc.current_row doc.cursor_position c) doc.current_row
      doc.num_letters hkeep WINDOW_WIDTH 0 (Nat.zero_le _) (by rw [WINDOW_WIDTH_eq] at *; omega)
    unfold SwimDocument.get_line_length
    dsimp only at this ⊢
    omega

/-- A two-character row with the cursor moved back one cell by the left
arrow. -/
def c10Doc : SwimDocument :=
  ((c1Doc.handle_unicode 'a').handle_unicode 'b').key (DecodedKey.RawKey KeyCode.ArrowLeft)

theorem c10_midline_typing_overwrites_witness :
    (c10Doc.window_status = WindowStatus.EditingFile ∧
     is_drawable 'x' = true ∧
     c10Doc.cursor_position < c10Doc.num_letters ∧
     c10Doc.num_letters < WINDOW_WIDTH ∧
     c10Doc.letters c10Doc.current_row c10Doc.num_letters = nul) ∧
    ((c10Doc.handle_unicode 'x').letters c10Doc.current_row c10Doc.cursor_position = 'x' ∧
     (∀ r col, ¬ (r = c10Doc.current_row ∧ col = c10Doc.cursor_position) →
        (c10Doc.handle_unicode 'x').letters r col = c10Doc.letters r col) ∧
     (c10Doc.handle_unicode 'x').num_letters = c10Doc.num_letters + 1 ∧
     (c10Doc.handle_unicode 'x').get_line_length c10Doc.current_row <
       (c10Doc.handle_unicode 'x').num_letters) :=
  ⟨⟨by decide, by decide, by decide, by decide, by decide⟩,
   c10_midline_typing_overwrites c10Doc 'x' (by decide) (by decide) (by decide) (by decide) (by decide)⟩

/-! ### C9: interpreter output printing -/

/-- A sequence of `print` calls delivered to a window's output sink,
starting from the given document and display rows. -/
def printSeq (start : SwimDocument × (Nat → String)) (msgs : List String) :
    SwimDocument × (Nat → String) :=
  msgs.foldl (fun sd msg => sd.1.printLine sd.2 msg) start

/-- A window whose program has just started producing output. -/
def c9Doc : SwimDocument :=
  { SwimDocument.new 1 2 with window_status := WindowStatus.ExecutingFile,
                              program_running := true }

/-- The blank display region of a window. -/
def blankDisp : Nat → String := fun _ => ""

/-- C9 counterexample: the first `WINDOW_HEIGHT` printed lines do append
sequentially, but the eleventh print does not scroll the output up by one
row keeping the previously printed lines: it blanks every row above the
bottom, so row 0 shows `""` instead of the second-oldest line `"L2"`
(and row 8 shows `""` instead of `"L10"`). -/
theorem c9_counterexample :
    ((printSeq (c9Doc, blankDisp)
        ["L1", "L2", "L3", "L4", "L5", "L6", "L7", "L8", "L9", "L10"]).2 0 = "L1" ∧
     (printSeq (c9Doc, blankDisp)
        ["L1", "L2", "L3", "L4", "L5", "L6", "L7", "L8", "L9", "L10"]).2 9 = "L10") ∧
    ¬ ((printSeq (c9Doc, blankDisp)
          ["L1", "L2", "L3", "L4", "L5", "L6", "L7", "L8", "L9", "L10", "L11"]).2 0 = "L2" ∧
       (printSeq (c9Doc, blankDisp)
          ["L1", "L2", "L3", "L4", "L5", "L6", "L7", "L8", "L9", "L10", "L11"]).2 8 = "L10") ∧
    ((printSeq (c9Doc, blankDisp)
         ["L1", "L2", "L3", "L4", "L5", "L6", "L7", "L8", "L9", "L10", "L11"]).2 0 = "" ∧
     (printSeq (c9Doc, blankDisp)
         ["L1", "L2", "L3", "L4", "L5", "L6", "L7", "L8", "L9", "L10", "L11"]).2 8 = "" ∧
     (printSeq (c9Doc, blankDisp)
         ["L1", "L2", "L3", "L4", "L5", "L6", "L7", "L8", "L9", "L10", "L11"]).2 9 = "L11") := by
  decide

/-- C9 amended: printed lines append sequentially from the window's first
content row while `output_line < WINDOW_HEIGHT`; once the bottom has been
passed, a further print blanks every row above the bottom and writes the
new line alone on the bottom row — every previously printed line is
discarded, not just the oldest. -/
theorem c9_print_appends_then_clears (doc : SwimDocument) (disp : Nat → String) (s : String) :
    (doc.output_line < WINDOW_HEIGHT →
       (doc.printLine disp s).2 doc.output_line = trimWS s ∧
       (∀ r, r ≠ doc.output_line → (doc.printLine disp s).2 r = disp r) ∧
       (doc.printLine disp s).1.output_line = doc.output_line + 1) ∧
    (WINDOW_HEIGHT ≤ doc.output_line →
       (∀ r, r < WINDOW_HEIGHT - 1 → (doc.printLine disp s).2 r = "") ∧
       (doc.printLine disp s).2 (WINDOW_HEIGHT - 1) = trimWS s ∧
       (doc.printLine disp s).1.output_line = WINDOW_HEIGHT) := by
  constructor
  · intro hlt
    have hnot : ¬ WINDOW_HEIGHT ≤ doc.output_line := by omega
    refine ⟨?_, ?_, ?_⟩
    · simp [SwimDocument.printLine, hnot]
    · intro r hr
      simp [SwimDocument.printLine, hnot, hr]
    · simp [SwimDocument.printLine, hnot]
  · intro hge
    refine ⟨?_, ?_, ?_⟩
    · intro r hr
      have hne : r ≠ WINDOW_HEIGHT - 1 := by omega
      simp [SwimDocument.printLine, hge, hne, hr]
    · simp [SwimDocument.printLine, hge]
    · have hge10 : 10 ≤ doc.output_line := WINDOW_HEIGHT_eq ▸ hge
      simp [SwimDocument.printLine, WINDOW_HEIGHT_eq, hge10]

/-- The window after ten prints, with its output region full. -/
def c9FullDoc : SwimDocument :=
  (printSeq (c9Doc, blankDisp)
    ["L1", "L2", "L3", "L4", "L5", "L6", "L7", "L8", "L9", "L10"]).1

/-- The display after ten prints. -/
def c9FullDisp : Nat → String :=
  (printSeq (c9Doc, blankDisp)
    ["L1", "L2", "L3", "L4", "L5", "L6", "L7", "L8", "L9", "L10"]).2

theorem c9_print_appends_then_clears_witness :
    (WINDOW_HEIGHT ≤ c9FullDoc.output_line) ∧
    ((∀ r, r < WINDOW_HEIGHT - 1 → (c9FullDoc.printLine c9FullDisp "L11").2 r = "") ∧
     (c9FullDoc.printLine c9FullDisp "L11").2 (WINDOW_HEIGHT - 1) = trimWS "L11" ∧
     (c9FullDoc.printLine c9FullDisp "L11").1.output_line = WINDOW_HEIGHT) :=
  ⟨by decide, (c9_print_appends_then_clears c9FullDoc c9FullDisp "L11").2 (by decide)⟩

/-! ### Storage lemmas -/

/-- Directory-full failure condition of `open_create` for `name`. -/
def createFails (fs : FileSystem) (name : String) : Prop :=
  fs.findIdx name = none ∧ MAX_FILES_STORED ≤ fs.files.length

instance (fs : FileSystem) (name : String) : Decidable (createFails fs name) := by
  unfold createFails
  infer_instance

theorem open_create_present (fs : FileSystem) (name : String) (j : Nat)
    (h : fs.findIdx name = some j) : fs.open_create name = Except.ok (j, fs) := by
  unfold FileSystem.open_create
  rw [h]

theorem open_create_new (fs : FileSystem) (name : String)
    (h1 : fs.findIdx name = none) (h2 : fs.files.length < MAX_FILES_STORED) :
    fs.open_create name = Except.ok (fs.files.length, ⟨fs.files ++ [(name, "")]⟩) := by
  unfold FileSystem.open_create
  rw [h1, if_pos h2]

theorem open_create_full (fs : FileSystem) (name : String)
    (h1 : fs.findIdx name = none) (h2 : ¬ fs.files.length < MAX_FILES_STORED) :
    fs.open_create name = Except.error FsError.DirectoryFull := by
  unfold FileSystem.open_create
  rw [h1, if_neg h2]

theorem open_create_ok_of_not_fails (fs : FileSystem) (name : String)
    (h : ¬ createFails fs name) :
    ∃ fdfs, fs.open_create name = Except.ok fdfs := by
  cases hfi : fs.findIdx name with
  | some j => exact ⟨(j, fs), open_create_present fs name j hfi⟩
  | none =>
    have h2 : fs.files.length < MAX_FILES_STORED := by
      by_contra hge
      exact h ⟨hfi, by omega⟩
    exact ⟨_, open_create_new fs name hfi h2⟩

/-- Appending an entry named `name` makes `name` findable. -/
theorem findIdx_append_self (files : List (String × String)) (name content : String)
    (h : (FileSystem.mk files).findIdx name = none) :
    (FileSystem.mk (files ++ [(name, content)])).findIdx name = some files.length := by
  unfold FileSystem.findIdx at *
  rw [List.findIdx?_append, h]
  simp [List.findIdx?_cons]

/-- `open_create` leaves the created name present. -/
theorem open_create_post (fs : FileSystem) (name : String) (fdfs : Nat × FileSystem)
    (h : fs.open_create name = Except.ok fdfs) : fdfs.2.findIdx name ≠ none := by
  unfold FileSystem.open_create at h
  cases hfi : fs.findIdx name with
  | some j =>
    rw [hfi] at h
    cases h
    simp [hfi]
  | none =>
    rw [hfi] at h
    by_cases h2 : fs.files.length < MAX_FILES_STORED
    · rw [if_pos h2] at h
      cases h
      simp only []
      rw [show fs = FileSystem.mk fs.files from rfl] at hfi
      rw [findIdx_append_self fs.files name "" hfi]
      intro hh
      cases hh
    · rw [if_neg h2] at h
      cases h

/-- Setting the found entry to another entry satisfying the search
predicate does not move the found index. -/
theorem findIdx?_set_of_found {α : Type} (p : α → Bool) (a : α) (ha : p a = true) :
    ∀ (l : List α) (j : Nat), List.findIdx? p l = some j →
      List.findIdx? p (l.set j a) = some j := by
  intro l
  induction l with
  | nil => intro j h; simp [List.findIdx?] at h
  | cons x xs ih =>
    intro j h
    rw [List.findIdx?_cons] at h
    by_cases hx : p x = true
    · rw [if_pos hx] at h
      have hj : j = 0 := by
        have := Option.some.inj h
        omega
      subst hj
      rw [List.set_cons_zero, List.findIdx?_cons, if_pos ha]
    · rw [if_neg hx, List.findIdx?_succ] at h
      cases hfi : List.findIdx? p xs with
      | none => rw [hfi] at h; simp at h
      | some j' =>
        rw [hfi] at h
        simp only [Option.map_some'] at h
        have hj : j = j' + 1 := (Option.some.inj h).symm
        subst hj
        rw [List.set_cons_succ, List.findIdx?_cons, if_neg hx, List.findIdx?_succ,
            ih j' hfi]
        rfl

/-- Writing through a handle found by name keeps the name findable at the
same handle. -/
theorem findIdx_write (fs : FileSystem) (name content : String) (j : Nat)
    (h : fs.findIdx name = some j) : (fs.write j content).findIdx name = some j := by
  have hj : j < fs.files.length ∧ fs.files.findIdx (fun e => e.1 = name) = j :=
    (@List.findIdx?_eq_some_iff_findIdx_eq _ fs.files (fun e => e.1 = name) j).mp h
  have hpj : (fs.files.getD j ("", "")).1 = name := by
    rw [List.getD_eq_getElem _ _ hj.1]
    have hw : fs.files.findIdx (fun e => e.1 = name) < fs.files.length := by
      rw [hj.2]
      exact hj.1
    have hget := @List.findIdx_getElem _ (fun e => e.1 = name) fs.files hw
    simp only [hj.2] at hget
    exact of_decide_eq_true hget
  unfold FileSystem.write FileSystem.findIdx
  apply findIdx?_set_of_found
  · exact decide_eq_true hpj
  · exact h

theorem read_write (fs : FileSystem) (j : Nat) (content : String)
    (hj : j < fs.files.length) : (fs.write j content).read j = content := by
  unfold FileSystem.read FileSystem.write
  rw [List.getD_eq_getElem _ _ (by simpa using hj), List.getElem_set_self]

/-- After `open_create` / `write` / `close`, reading the name back yields
the written content. -/
theorem createWrite_readFile (fs : FileSystem) (name content : String)
    (h : ¬ createFails fs name) :
    (createWrite fs name content).readFile name = some content := by
  unfold createWrite
  cases hfi : fs.findIdx name with
  | some j =>
    rw [open_create_present fs name j hfi]
    have hj : j < fs.files.length :=
      ((@List.findIdx?_eq_some_iff_findIdx_eq _ fs.files (fun e => e.1 = name) j).mp hfi).1
    unfold FileSystem.readFile FileSystem.close FileSystem.open_read
    rw [findIdx_write fs name content j hfi]
    rw [Option.map_some']
    rw [read_write fs j content hj]
  | none =>
    have h2 : fs.files.length < MAX_FILES_STORED := by
      by_contra hge
      exact h ⟨hfi, by omega⟩
    rw [open_create_new fs name hfi h2]
    dsimp only
    have hset : (FileSystem.mk (fs.files ++ [(name, "")])).write fs.files.length content =
        FileSystem.mk (fs.files ++ [(name, content)]) := by
      unfold FileSystem.write
      have hgd : ((fs.files ++ [(name, "")]).getD fs.files.length ("", "")).1 = name := by
        rw [List.getD_append_right _ _ _ _ (Nat.le_refl _)]
        simp
      rw [hgd]
      have : (fs.files ++ [(name, "")]).set fs.files.length (name, content) =
          fs.files ++ [(name, content)] := by
        rw [List.set_append_right _ _ (Nat.le_refl _)]
        simp
      rw [this]
    unfold FileSystem.close
    rw [hset]
    unfold FileSystem.readFile FileSystem.open_read
    rw [show fs = FileSystem.mk fs.files from rfl] at hfi
    rw [findIdx_append_self fs.files name content hfi]
    rw [Option.map_some']
    unfold FileSystem.read
    rw [List.getD_append_right _ _ _ _ (Nat.le_refl _)]
    simp

/-! ### C6: the modal seizes all keyboard input -/

/-- The per-window fields claim C6 requires the modal to leave unchanged:
character buffer, cursor and line bookkeeping, status, highlighted file
index, and the running flag. -/
def docFrame (d : SwimDocument) :
    (Nat → Nat → Char) × Nat × Nat × Nat × Nat × WindowStatus × Nat × Bool :=
  (d.letters, d.num_letters, d.next_letter, d.current_row, d.cursor_position,
   d.window_status, d.active_file, d.program_running)

/-- The modal creation loop only touches each window's storage. -/
theorem createLoop_frame (filename : String) :
    ∀ (l : List (Fin 4)) (docs : Fin 4 → SwimDocument) (i : Fin 4),
      docFrame ((createLoop docs filename l).1 i) = docFrame (docs i) := by
  intro l
  induction l with
  | nil => intro docs i; rfl
  | cons j rest ih =>
    intro docs i
    simp only [createLoop]
    split
    · rfl
    · rw [ih]
      by_cases hij : i = j
      · subst hij
        rw [Function.update_same]
        rfl
      · rw [Function.update_noteq hij]

/-- C6: while the file-creation modal is open, every keyboard event —
arrows, `'e'`, `'r'`, the F1–F6 raw keys, printable characters, backspace
and newline — is routed to the modal, and every window's character
buffer, cursor fields, status, highlighted-file index and `program_running`
flag are unchanged. -/
theorem c6_modal_routes_all_input (m : SwimDocManager) (k : DecodedKey)
    (hmodal : m.creating_file = true) :
    ∃ m', m.key k = some m' ∧
      ∀ i : Fin 4, docFrame (m'.documents i) = docFrame (m.documents i) := by
  refine ⟨(m.file_creation_input k).1, ?_, ?_⟩
  · simp [SwimDocManager.key, hmodal]
  · intro i
    cases k with
    | RawKey kc => rfl
    | Unicode c =>
      simp only [SwimDocManager.file_creation_input]
      split_ifs <;>
        first
        | rfl
        | exact createLoop_frame _ _ _ _

/-- A concrete manager state with the modal open. -/
def c6Manager : SwimDocManager :=
  { SwimDocManager.default with creating_file := true }

theorem c6_modal_routes_all_input_witness :
    c6Manager.creating_file = true ∧
    ∃ m', c6Manager.key (DecodedKey.Unicode 'r') = some m' ∧
      ∀ i : Fin 4, docFrame (m'.documents i) = docFrame (c6Manager.documents i) :=
  ⟨rfl, c6_modal_routes_all_input c6Manager (DecodedKey.Unicode 'r') rfl⟩

/-! ### C7: modal file creation, failure and success -/

/-- The filename typed into the modal buffer. -/
def typedFilename (m : SwimDocManager) : String :=
  String.mk ((List.range m.new_filename_length).map m.new_filename)

/-- The modal creation loop under an everywhere-creatable name: it
succeeds, every visited window's directory gains the name, and unvisited
windows are untouched. -/
theorem createLoop_ok (filename : String) :
    ∀ (l : List (Fin 4)) (docs : Fin 4 → SwimDocument),
      (∀ i : Fin 4, ¬ createFails (docs i).file_system filename) →
      (createLoop docs filename l).2 = true ∧
      (∀ i : Fin 4, i ∈ l →
        ((createLoop docs filename l).1 i).file_system.findIdx filename ≠ none) ∧
      (∀ i : Fin 4, i ∉ l → (createLoop docs filename l).1 i = docs i) := by
  intro l
  induction l with
  | nil =>
    intro docs _
    refine ⟨rfl, ?_, fun i _ => rfl⟩
    intro i hi
    cases hi
  | cons j rest ih =>
    intro docs hok
    obtain ⟨fdfs, hoc⟩ := open_create_ok_of_not_fails _ _ (hok j)
    have hpost := open_create_post _ _ _ hoc
    simp only [createLoop, hoc]
    set docs' := Function.update docs j
      { docs j with file_system := fdfs.2.close fdfs.1 } with hdocs'
    have hok' : ∀ i : Fin 4, ¬ createFails (docs' i).file_system filename := by
      intro i
      by_cases hij : i = j
      · subst hij
        rw [hdocs', Function.update_same]
        intro hfail
        exact hpost hfail.1
      · rw [hdocs', Function.update_noteq hij]
        exact hok i
    obtain ⟨hsucc, hmem, hnotmem⟩ := ih docs' hok'
    refine ⟨hsucc, ?_, ?_⟩
    · intro i hi
      rcases List.mem_cons.mp hi with hij | hir
      · subst hij
        by_cases hr : i ∈ rest
        · exact hmem i hr
        · rw [hnotmem i hr, hdocs', Function.update_same]
          exact hpost
      · exact hmem i hir
    · intro i hi
      have hij : i ≠ j := fun hh => hi (hh ▸ List.mem_cons_self j rest)
      have hir : i ∉ rest := fun hh => hi (List.mem_cons_of_mem j hh)
      rw [hnotmem i hir, hdocs', Function.update_noteq hij]

/-- C7: pressing newline in the open modal with a non-empty typed filename,
when all four windows' directories agree on whether creation of that name
fails: if creation fails (directory full) in some window, the error
message is shown, the modal stays open and no window's storage changes at
all (so no entry is gained and none is corrupted); if it fails nowhere,
the modal closes and every window's directory holds the name. -/
theorem c7_modal_create_atomic (m : SwimDocManager)
    (hmodal : m.creating_file = true)
    (hlen : 0 < m.new_filename_length)
    (huni : ∀ i j : Fin 4,
      createFails (m.documents i).file_system (typedFilename m) ↔
      createFails (m.documents j).file_system (typedFilename m)) :
    ((∃ i : Fin 4, createFails (m.documents i).file_system (typedFilename m)) →
       (m.file_creation_input (DecodedKey.Unicode '\n')).2 = some "Too many files!" ∧
       (m.file_creation_input (DecodedKey.Unicode '\n')).1.creating_file = true ∧
       ∀ i : Fin 4,
         ((m.file_creation_input (DecodedKey.Unicode '\n')).1.documents i).file_system =
           (m.documents i).file_system) ∧
    ((∀ i : Fin 4, ¬ createFails (m.documents i).file_system (typedFilename m)) →
       (m.file_creation_input (DecodedKey.Unicode '\n')).1.creating_file = false ∧
       ∀ i : Fin 4,
         ((m.file_creation_input (DecodedKey.Unicode '\n')).1.documents i).file_system.findIdx
           (typedFilename m) ≠ none) := by
  have hfin : (List.finRange 4 : List (Fin 4)) = [0, 1, 2, 3] := by decide
  constructor
  · intro hex
    obtain ⟨iw, hiw⟩ := hex
    have h0 : createFails ((m.documents) 0).file_system (typedFilename m) :=
      (huni iw 0).mp hiw
    have hfull : ¬ (m.documents 0).file_system.files.length < MAX_FILES_STORED := by
      have := h0.2
      omega
    have herr := open_create_full _ _ h0.1 hfull
    simp only [SwimDocManager.file_creation_input, if_pos rfl, if_pos hlen, hfin]
    simp only [createLoop, typedFilename] at *
    rw [herr]
    exact ⟨rfl, hmodal, fun i => rfl⟩
  · intro hall
    obtain ⟨hsucc, hmem, _⟩ := createLoop_ok (typedFilename m) (List.finRange 4)
      m.documents hall
    simp only [SwimDocManager.file_creation_input, if_pos rfl, if_pos hlen]
    simp only [typedFilename] at *
    rw [if_pos hsucc]
    exact ⟨rfl, fun i => hmem i (List.mem_finRange i)⟩

/-- A storage whose directory is full (`MAX_FILES_STORED` entries). -/
def fullFS : FileSystem :=
  ⟨(List.range MAX_FILES_STORED).map (fun n => (toString n, ""))⟩

/-- A manager with the modal open, a one-character filename typed, and
every window's directory full. -/
def c7Manager : SwimDocManager :=
  { SwimDocManager.default with
      documents := fun _ => { SwimDocument.new 1 2 with file_system := fullFS },
      creating_file := true,
      new_filename := fun i => if i = 0 then 'z' else nul,
      new_filename_length := 1 }

theorem c7_modal_create_atomic_witness :
    (c7Manager.creating_file = true ∧ 0 < c7Manager.new_filename_length ∧
     (∀ i j : Fin 4,
       createFails (c7Manager.documents i).file_system (typedFilename c7Manager) ↔
       createFails (c7Manager.documents j).file_system (typedFilename c7Manager)) ∧
     (∃ i : Fin 4, createFails (c7Manager.documents i).file_system (typedFilename c7Manager))) ∧
    ((c7Manager.file_creation_input (DecodedKey.Unicode '\n')).2 = some "Too many files!" ∧
     (c7Manager.file_creation_input (DecodedKey.Unicode '\n')).1.creating_file = true ∧
     ∀ i : Fin 4,
       ((c7Manager.file_creation_input (DecodedKey.Unicode '\n')).1.documents i).file_system =
         (c7Manager.documents i).file_system) :=
  ⟨⟨by decide, by decide, by decide, by decide⟩,
   (c7_modal_create_atomic c7Manager (by decide) (by decide) (by decide)).1 (by decide)⟩

/-! ### C8: pressing `'r'` on a window showing finished output -/

/-- A manager whose active window is displaying finished program output. -/
def c8Manager : SwimDocManager :=
  { SwimDocManager.default with
      documents := Function.update SwimDocManager.default.documents 0
        { SwimDocManager.default.documents 0 with
            window_status := WindowStatus.DisplayingOutput } }

/-- C8: pressing `'r'` while the active window's status is
`DisplayingOutput` does NOT dismiss the output: the `'r'` handler is
reachable only under a `DisplayingFiles` guard (src/lib.rs line 238), so
the nested dismissal branch (src/lib.rs lines 316-321) is dead code and
the window stays in `DisplayingOutput`. -/
theorem c8_r_at_displaying_output_is_ignored :
    (c8Manager.key (DecodedKey.Unicode 'r')).map
        (fun m' => (m'.documents 0).window_status) =
      some WindowStatus.DisplayingOutput ∧
    WindowStatus.DisplayingOutput ≠ WindowStatus.DisplayingFiles := by
  decide

/-! ### C4: the F6 broadcast save -/

/-- Saving into one window whose directory can take the name leaves the
content readable under that name. -/
theorem saveAll_readFile (docs : Fin 4 → SwimDocument) (filename content : String)
    (i : Fin 4) (h : ¬ createFails (docs i).file_system filename) :
    ((saveAll docs filename content) i).file_system.readFile filename = some content := by
  unfold saveAll
  obtain ⟨fdfs, hoc⟩ := open_create_ok_of_not_fails _ _ h
  rw [hoc]
  dsimp only
  have hcw : (fdfs.2.write fdfs.1 content).close fdfs.1 =
      createWrite (docs i).file_system filename content := by
    unfold createWrite
    rw [hoc]
  rw [hcw]
  exact createWrite_readFile _ _ _ h

/-- C4: after F6 with the active window editing a recorded filename, the
serialized buffer is written under that filename into every one of the
four windows' storages (assuming each directory can take the name, which
the broadcast-create discipline maintains), so `open_read` of that
filename from any window returns the same serialized content. -/
theorem c4_f6_broadcast_save (m : SwimDocManager)
    (hmodal : m.creating_file = false)
    (hedit : (m.documents m.active_window).window_status = WindowStatus.EditingFile)
    (hlen : 0 < (m.documents m.active_window).current_editing_file_len)
    (hroom : ∀ i : Fin 4, ¬ createFails (m.documents i).file_system
        (savedFilename (m.documents m.active_window))) :
    ∃ m', m.key (DecodedKey.RawKey KeyCode.F6) = some m' ∧
      ∀ i : Fin 4, (m'.documents i).file_system.readFile
          (savedFilename (m.documents m.active_window)) =
        some (String.mk (serializeDoc (m.documents m.active_window))) := by
  have hdk : ∀ d : SwimDocument, d.key (DecodedKey.RawKey KeyCode.F6) = d := fun d => rfl
  have hkey : m.key (DecodedKey.RawKey KeyCode.F6) = some (keyF6 m) := by
    simp only [SwimDocManager.key, hmodal, Bool.false_eq_true, if_false]
    rw [hdk, Function.update_eq_self]
  refine ⟨keyF6 m, hkey, ?_⟩
  intro i
  have hsave : (keyF6 m).documents = saveAll
      (Function.update m.documents m.active_window
        { m.documents m.active_window with
            program_running := false,
            window_status := WindowStatus.DisplayingFiles })
      (savedFilename (m.documents m.active_window))
      (String.mk (serializeDoc (m.documents m.active_window))) := by
    simp only [keyF6]
    rw [if_pos ⟨hedit, hlen⟩]
  rw [hsave]
  have hfs1 : (Function.update m.documents m.active_window
      { m.documents m.active_window with
          program_running := false,
          window_status := WindowStatus.DisplayingFiles } i).file_system =
      (m.documents i).file_system := by
    by_cases hia : i = m.active_window
    · subst hia
      rw [Function.update_same]
    · rw [Function.update_noteq hia]
  apply saveAll_readFile
  rw [hfs1]
  exact hroom i

/-- A manager whose first window edits file `"foo"` with buffer text
`"bar"`. -/
def c4Manager : SwimDocManager :=
  { SwimDocManager.default with
      documents := Function.update SwimDocManager.default.documents 0
        { SwimDocManager.default.documents 0 with
            window_status := WindowStatus.EditingFile,
            letters := setCell (setCell (setCell (fun _ _ => nul) 0 0 'b') 0 1 'a') 0 2 'r',
            current_editing_file := fun i =>
              if i = 0 then 'f' else if i = 1 then 'o' else if i = 2 then 'o' else nul,
            current_editing_file_len := 3 } }

theorem c4_f6_broadcast_save_witness :
    (c4Manager.creating_file = false ∧
     (c4Manager.documents c4Manager.active_window).window_status = WindowStatus.EditingFile ∧
     0 < (c4Manager.documents c4Manager.active_window).current_editing_file_len ∧
     (∀ i : Fin 4, ¬ createFails (c4Manager.documents i).file_system
        (savedFilename (c4Manager.documents c4Manager.active_window)))) ∧
    ∃ m', c4Manager.key (DecodedKey.RawKey KeyCode.F6) = some m' ∧
      ∀ i : Fin 4, (m'.documents i).file_system.readFile
          (savedFilename (c4Manager.documents c4Manager.active_window)) =
        some (String.mk (serializeDoc (c4Manager.documents c4Manager.active_window))) :=
  ⟨⟨by decide, by decide, by decide, by decide⟩,
   c4_f6_broadcast_save c4Manager (by decide) (by decide) (by decide) (by decide)⟩

/-! ### C3: round-robin scheduling -/

/-- The `running_programs` list of a manager state. -/
def runnable (m : SwimDocManager) : List (Fin 4) := runnableOf m.documents

/-- The `count` of runnable windows. -/
def rrCount (m : SwimDocManager) : Nat := (runnable m).length

/-- The `doc_to_tick` selection `running_programs[next_tick % count]`. -/
def rrPick (m : SwimDocManager) : Fin 4 :=
  (runnable m).getD (m.next_tick % rrCount m) 0

/-- The window a call to `update` will tick, if any. -/
def scheduledWindow (m : SwimDocManager) : Option (Fin 4) :=
  if 0 < rrCount m then some (rrPick m) else none

/-- The `active` highlight refresh does not change which windows are
runnable. -/
theorem runnableOf_active_irrelevant (m : SwimDocManager) :
    runnableOf (activeSet m) = runnableOf m.documents := by
  unfold runnableOf activeSet
  apply List.filter_congr
  intro i _
  rfl

/-- A tick whose interpreter step reports `Continuing` changes neither the
running flag nor the status of the ticked window. -/
theorem tick_continuing_frame (doc : SwimDocument) (ip : Option Interpreter) :
    (doc.tick ip TickStatus.Continuing).1.program_running = doc.program_running ∧
    (doc.tick ip TickStatus.Continuing).1.window_status = doc.window_status := by
  cases ip <;> simp only [SwimDocument.tick] <;> split_ifs <;> simp_all

theorem incTick_ticksOf (m : SwimDocManager) (j i : Fin 4) :
    ticksOf (incTick m j) i = ticksOf m i + (if i = j then 1 else 0) := by
  fin_cases i <;> fin_cases j <;> simp [incTick, ticksOf]

/-- Characterization of one `update` call when the runnable set is
non-empty: the selected window, the rotation-index step, the counter
increments and the per-window document changes. -/
theorem update_spec (m : SwimDocManager) (r : TickStatus) (h : 0 < rrCount m) :
    scheduledWindow m = some (rrPick m) ∧
    (m.update r).next_tick = (m.next_tick + 1) % rrCount m ∧
    (∀ i : Fin 4, ticksOf (m.update r) i = ticksOf m i + (if i = rrPick m then 1 else 0)) ∧
    (∀ i : Fin 4, i ≠ rrPick m → (m.update r).documents i = activeSet m i) ∧
    (m.update r).documents (rrPick m) =
      ((activeSet m (rrPick m)).tick (m.interpreters (rrPick m)) r).1 := by
  have hact := runnableOf_active_irrelevant m
  have hupd : m.update r =
      { incTick { m with documents := activeSet m } (rrPick m) with
          documents := Function.update (activeSet m) (rrPick m)
            (((activeSet m (rrPick m)).tick (m.interpreters (rrPick m)) r).1),
          interpreters := Function.update m.interpreters (rrPick m)
            (((activeSet m (rrPick m)).tick (m.interpreters (rrPick m)) r).2),
          next_tick := (m.next_tick + 1) % rrCount m } := by
    simp only [SwimDocManager.update, rrPick, rrCount, runnable]
    rw [hact, if_pos (show 0 < (runnableOf m.documents).length from h)]
  refine ⟨?_, ?_, ?_, ?_, ?_⟩
  · unfold scheduledWindow
    rw [if_pos h]
  · rw [hupd]
  · intro i
    rw [hupd]
    have h1 : ticksOf
        { incTick { m with documents := activeSet m } (rrPick m) with
            documents := Function.update (activeSet m) (rrPick m)
              (((activeSet m (rrPick m)).tick (m.interpreters (rrPick m)) r).1),
            interpreters := Function.update m.interpreters (rrPick m)
              (((activeSet m (rrPick m)).tick (m.interpreters (rrPick m)) r).2),
            next_tick := (m.next_tick + 1) % rrCount m } i =
        ticksOf (incTick { m with documents := activeSet m } (rrPick m)) i := rfl
    rw [h1, incTick_ticksOf]
    rfl
  · intro i hi
    rw [hupd]
    exact Function.update_noteq hi _ _
  · rw [hupd]
    exact Function.update_same _ _ _

/-- A `Continuing` cycle leaves the runnable set unchanged. -/
theorem runnableOf_update_continuing (m : SwimDocManager) (h : 0 < rrCount m) :
    runnableOf (m.update TickStatus.Continuing).documents = runnableOf m.documents := by
  obtain ⟨-, -, -, hne, hw⟩ := update_spec m TickStatus.Continuing h
  unfold runnableOf
  apply List.filter_congr
  intro i _
  by_cases hiw : i = rrPick m
  · rw [hiw, hw]
    have hf := tick_continuing_frame (activeSet m (rrPick m)) (m.interpreters (rrPick m))
    rw [hf.1, hf.2]
    rfl
  · rw [hne i hiw]
    rfl

/-- `k` consecutive cycles whose interpreter steps all report
`Continuing` (a fixed runnable set, as the claim assumes). -/
def updateIter (m : SwimDocManager) (k : Nat) : SwimDocManager :=
  (fun s => SwimDocManager.update s TickStatus.Continuing)^[k] m

theorem updateIter_succ (m : SwimDocManager) (k : Nat) :
    updateIter m (k + 1) = (updateIter m k).update TickStatus.Continuing :=
  Function.iterate_succ_apply' _ _ _

/-- Trace invariant over consecutive `Continuing` cycles: the runnable
list is fixed, the rotation index advances by one per cycle, and each
counter has risen by the number of cycles that scheduled its window. -/
theorem updateIter_spec (m : SwimDocManager) (h : 0 < rrCount m) :
    ∀ k, runnableOf (updateIter m k).documents = runnableOf m.documents ∧
      (updateIter m k).next_tick % rrCount m = (m.next_tick + k) % rrCount m ∧
      (∀ i : Fin 4, ticksOf (updateIter m k) i = ticksOf m i +
        ((List.range k).filter
          (fun j => (runnable m).getD ((m.next_tick + j) % rrCount m) 0 = i)).length) := by
  intro k
  induction k with
  | zero =>
    refine ⟨rfl, rfl, fun i => by simp [updateIter]⟩
  | succ k ih =>
    obtain ⟨hrun, hnt, hticks⟩ := ih
    have hS : 0 < rrCount (updateIter m k) := by
      unfold rrCount runnable
      rw [hrun]
      exact h
    obtain ⟨hsched, hnt', hticks', -, -⟩ := update_spec (updateIter m k) TickStatus.Continuing hS
    have hrunS : runnable (updateIter m k) = runnable m := hrun
    have hcountS : rrCount (updateIter m k) = rrCount m := by
      unfold rrCount
      rw [hrunS]
    have hpick : rrPick (updateIter m k) =
        (runnable m).getD ((m.next_tick + k) % rrCount m) 0 := by
      unfold rrPick
      rw [hrunS, hcountS, hnt]
    refine ⟨?_, ?_, ?_⟩
    · rw [updateIter_succ, runnableOf_update_continuing _ hS]
      exact hrun
    · rw [updateIter_succ, hnt', hcountS,
        Nat.mod_mod_of_dvd _ (dvd_refl (rrCount m))]
      conv_lhs => rw [Nat.add_mod, hnt, ← Nat.add_mod]
      rw [Nat.add_assoc]
    · intro i
      rw [updateIter_succ, hticks' i, hticks i, hpick]
      rw [List.range_succ, List.filter_append, List.length_append]
      have hsingle :
          (List.filter
            (fun j => (runnable m).getD ((m.next_tick + j) % rrCount m) 0 = i) [k]).length =
          if i = (runnable m).getD ((m.next_tick + k) % rrCount m) 0 then 1 else 0 := by
        by_cases hik : i = (runnable m).getD ((m.next_tick + k) % rrCount m) 0
        · rw [if_pos hik]
          have hqk : (fun j =>
              decide ((runnable m).getD ((m.next_tick + j) % rrCount m) 0 = i)) k = true :=
            decide_eq_true hik.symm
          rw [@List.filter_cons_of_pos Nat
            (fun j => decide ((runnable m).getD ((m.next_tick + j) % rrCount m) 0 = i))
            k [] hqk]
          rfl
        · rw [if_neg hik]
          have hqk : ¬ (fun j =>
              decide ((runnable m).getD ((m.next_tick + j) % rrCount m) 0 = i)) k = true :=
            fun hq => hik (of_decide_eq_true hq).symm
          rw [@List.filter_cons_of_neg Nat
            (fun j => decide ((runnable m).getD ((m.next_tick + j) % rrCount m) 0 = i))
            k [] hqk]
          rfl
      rw [hsingle]
      omega

/-- Any two of `N` consecutive rotation steps schedule different list
positions. -/
theorem rotation_inj (N t : Nat) {j1 j2 : Nat} (h1 : j1 < N) (h2 : j2 < N)
    (he : (t + j1) % N = (t + j2) % N) : j1 = j2 := by
  have hmod : j1 % N = j2 % N := Nat.ModEq.add_left_cancel' t he
  rwa [Nat.mod_eq_of_lt h1, Nat.mod_eq_of_lt h2] at hmod

/-- A list with no duplicates whose unique match is `j0` filters to a
singleton. -/
theorem filter_unique_length {q : Nat → Bool} :
    ∀ (l : List Nat), l.Nodup → ∀ j0, j0 ∈ l → q j0 = true →
      (∀ j ∈ l, q j = true → j = j0) → (l.filter q).length = 1 := by
  intro l
  induction l with
  | nil => intro _ j0 hm; cases hm
  | cons x xs ih =>
    intro hnd j0 hm hq huniq
    rcases List.mem_cons.mp hm with rfl | hmx
    · rw [List.filter_cons_of_pos hq]
      have hnil : xs.filter q = [] := by
        rw [List.filter_eq_nil_iff]
        intro a ha hqa
        have haj : a = j0 := huniq a (List.mem_cons_of_mem _ ha) hqa
        subst haj
        exact absurd ha (List.nodup_cons.mp hnd).1
      rw [hnil]
      rfl
    · have hx : ¬ q x = true := by
        intro hqx
        have hxj : x = j0 := huniq x (List.mem_cons_self _ _) hqx
        subst hxj
        exact (List.nodup_cons.mp hnd).1 hmx
      rw [List.filter_cons_of_neg hx]
      exact ih (List.nodup_cons.mp hnd).2 j0 hmx hq
        (fun j hj hqj => huniq j (List.mem_cons_of_mem _ hj) hqj)

/-- Over `N` consecutive rotation steps, each position `p < N` is hit
exactly once. -/
theorem rotation_hits_once (N t p : Nat) (hN : 0 < N) (hp : p < N) :
    ((List.range N).filter (fun j => (t + j) % N = p)).length = 1 := by
  have ha : t % N < N := Nat.mod_lt _ hN
  have hdiv : N * (t / N) + t % N = t := Nat.div_add_mod t N
  have hj0lt : (p + (N - t % N)) % N < N := Nat.mod_lt _ hN
  have hj0eq : (t + (p + (N - t % N)) % N) % N = p := by
    have h1 : (t + (p + (N - t % N)) % N) % N = (t + (p + (N - t % N))) % N := by
      conv_lhs => rw [Nat.add_mod]
      conv_rhs => rw [Nat.add_mod]
      rw [Nat.mod_mod_of_dvd _ (dvd_refl N)]
    have h2 : t + (p + (N - t % N)) = p + N * (t / N + 1) := by
      have hexp : N * (t / N + 1) = N * (t / N) + N := by ring
      omega
    rw [h1, h2, Nat.add_mul_mod_self_left, Nat.mod_eq_of_lt hp]
  apply filter_unique_length (List.range N) (List.nodup_range N)
    ((p + (N - t % N)) % N) (List.mem_range.mpr hj0lt)
  · exact decide_eq_true hj0eq
  · intro j hj hqj
    have hjlt : j < N := List.mem_range.mp hj
    have hqj' : (t + j) % N = p := of_decide_eq_true hqj
    exact rotation_inj N t hjlt hj0lt (hqj'.trans hj0eq.symm)

/-- C3: with a non-empty set of `N` runnable windows held fixed
(interpreter steps reporting `Continuing`), a window in `AwaitingInput`
is never runnable; the `k`-th of `N` consecutive `update` calls ticks
exactly the runnable window at rotation position `(next_tick + k) % N`;
after the `N` calls every runnable window's CPU-tick counter rose by
exactly one, and a non-runnable window (in particular one awaiting
input) was never scheduled and its counter is unchanged. -/
theorem c3_round_robin (m : SwimDocManager) (hN : 0 < rrCount m) :
    (∀ i : Fin 4, (m.documents i).window_status = WindowStatus.AwaitingInput →
       i ∉ runnable m) ∧
    (∀ k, k < rrCount m →
       scheduledWindow (updateIter m k) =
         some ((runnable m).getD ((m.next_tick + k) % rrCount m) 0)) ∧
    (∀ i : Fin 4, i ∈ runnable m →
       ticksOf (updateIter m (rrCount m)) i = ticksOf m i + 1) ∧
    (∀ i : Fin 4, i ∉ runnable m →
       ticksOf (updateIter m (rrCount m)) i = ticksOf m i ∧
       ∀ k, k < rrCount m → scheduledWindow (updateIter m k) ≠ some i) := by
  have hnd : (runnable m).Nodup := List.Nodup.filter _ (List.nodup_finRange 4)
  have hsched : ∀ k, k < rrCount m →
      scheduledWindow (updateIter m k) =
        some ((runnable m).getD ((m.next_tick + k) % rrCount m) 0) := by
    intro k _
    obtain ⟨hrun, hnt, -⟩ := updateIter_spec m hN k
    have hS : 0 < rrCount (updateIter m k) := by
      unfold rrCount runnable
      rw [hrun]
      exact hN
    have hpick : rrPick (updateIter m k) =
        (runnable m).getD ((m.next_tick + k) % rrCount m) 0 := by
      unfold rrPick
      have hrunS : runnable (updateIter m k) = runnable m := hrun
      have hcountS : rrCount (updateIter m k) = rrCount m := by
        unfold rrCount
        rw [hrunS]
      rw [hrunS, hcountS, hnt]
    unfold scheduledWindow
    rw [if_pos hS, hpick]
  refine ⟨?_, hsched, ?_, ?_⟩
  · intro i hst hmem
    have hf := (List.mem_filter.mp hmem).2
    rw [hst] at hf
    simp at hf
  · intro i hmem
    obtain ⟨-, -, hticks⟩ := updateIter_spec m hN (rrCount m)
    obtain ⟨p, hpi⟩ := List.mem_iff_get.mp hmem
    have hplt : p.val < rrCount m := p.isLt
    have hplt2 : p.val < (runnable m).length := p.isLt
    rw [List.get_eq_getElem] at hpi
    have hcong : (List.range (rrCount m)).filter
        (fun j => decide ((runnable m).getD ((m.next_tick + j) % rrCount m) 0 = i)) =
      (List.range (rrCount m)).filter
        (fun j => decide ((m.next_tick + j) % rrCount m = p.val)) := by
      apply List.filter_congr
      intro j _
      apply decide_eq_decide.mpr
      have hlt : (m.next_tick + j) % rrCount m < (runnable m).length :=
        Nat.mod_lt _ hN
      rw [List.getD_eq_getElem _ _ hlt]
      constructor
      · intro he
        have hip : (runnable m)[(m.next_tick + j) % rrCount m] =
            (runnable m)[p.val] := he.trans hpi.symm
        exact (List.Nodup.getElem_inj_iff hnd).mp hip
      · intro he
        have hip : (runnable m)[(m.next_tick + j) % rrCount m] =
            (runnable m)[p.val] := by
          simp only [he]
        exact hip.trans hpi
    rw [hticks i, hcong,
      rotation_hits_once (rrCount m) m.next_tick p.val hN hplt]
  · intro i hmem
    have hgetne : ∀ k, (runnable m).getD ((m.next_tick + k) % rrCount m) 0 ≠ i := by
      intro k he
      have hlt : (m.next_tick + k) % rrCount m < (runnable m).length :=
        Nat.mod_lt _ hN
      rw [List.getD_eq_getElem _ _ hlt] at he
      exact hmem (he ▸ List.getElem_mem hlt)
    constructor
    · obtain ⟨-, -, hticks⟩ := updateIter_spec m hN (rrCount m)
      rw [hticks i]
      have hnil : (List.range (rrCount m)).filter
          (fun j => decide ((runnable m).getD ((m.next_tick + j) % rrCount m) 0 = i)) = [] := by
        rw [List.filter_eq_nil_iff]
        intro j _ hq
        exact hgetne j (of_decide_eq_true hq)
      rw [hnil]
      rfl
    · intro k hk hs
      rw [hsched k hk] at hs
      exact hgetne k (Option.some.inj hs)

/-- A manager with two runnable windows (0 and 2), one window awaiting
input (1) and one idle window (3). -/
def c3Manager : SwimDocManager :=
  { SwimDocManager.default with
      documents := fun i =>
        if i = 0 then
          { SwimDocument.new 1 2 with
              window_status := WindowStatus.ExecutingFile, program_running := true }
        else if i = 1 then
          { SwimDocument.new 36 2 with
              window_status := WindowStatus.AwaitingInput, program_running := true }
        else if i = 2 then
          { SwimDocument.new 1 14 with
              window_status := WindowStatus.ExecutingFile, program_running := true }
        else SwimDocument.new 36 14,
      interpreters := fun i =>
        if i = 0 ∨ i = 1 ∨ i = 2 then some (Interpreter.new "") else none }

theorem c3_round_robin_witness :
    0 < rrCount c3Manager ∧
    ((∀ i : Fin 4, (c3Manager.documents i).window_status = WindowStatus.AwaitingInput →
        i ∉ runnable c3Manager) ∧
     (∀ k, k < rrCount c3Manager →
        scheduledWindow (updateIter c3Manager k) =
          some ((runnable c3Manager).getD
            ((c3Manager.next_tick + k) % rrCount c3Manager) 0)) ∧
     (∀ i : Fin 4, i ∈ runnable c3Manager →
        ticksOf (updateIter c3Manager (rrCount c3Manager)) i = ticksOf c3Manager i + 1) ∧
     (∀ i : Fin 4, i ∉ runnable c3Manager →
        ticksOf (updateIter c3Manager (rrCount c3Manager)) i = ticksOf c3Manager i ∧
        ∀ k, k < rrCount c3Manager →
          scheduledWindow (updateIter c3Manager k) ≠ some i)) :=
  ⟨by decide, c3_round_robin c3Manager (by decide)⟩

/-! ### C5: interpreter handles versus window status -/

/-- The direction of the claimed invariant that the code maintains: a
window in `ExecutingFile` or `AwaitingInput` status holds an interpreter
handle.  (The converse is false: F6 does not drop the handle.) -/
abbrev InterpInv (m : SwimDocManager) : Prop :=
  ∀ i : Fin 4, ((m.documents i).window_status = WindowStatus.ExecutingFile ∨
                (m.documents i).window_status = WindowStatus.AwaitingInput) →
    (m.interpreters i).isSome = true

/-- `handle_unicode` changes a window's status only from `AwaitingInput`
to `ExecutingFile` (composed input submitted). -/
theorem handle_unicode_status (doc : SwimDocument) (c : Char) :
    (doc.handle_unicode c).window_status = doc.window_status ∨
    (doc.window_status = WindowStatus.AwaitingInput ∧
     (doc.handle_unicode c).window_status = WindowStatus.ExecutingFile) := by
  unfold SwimDocument.handle_unicode
  split_ifs <;>
    first
    | exact Or.inl rfl
    | exact Or.inr ⟨‹doc.window_status = WindowStatus.AwaitingInput›, rfl⟩

/-- `SwimDocument::key` changes a window's status only from
`AwaitingInput` to `ExecutingFile`. -/
theorem key_status_cases (doc : SwimDocument) (k : DecodedKey) :
    (doc.key k).window_status = doc.window_status ∨
    (doc.window_status = WindowStatus.AwaitingInput ∧
     (doc.key k).window_status = WindowStatus.ExecutingFile) := by
  cases k with
  | Unicode c =>
    simp only [SwimDocument.key]
    split
    · exact handle_unicode_status doc c
    · exact Or.inl rfl
  | RawKey kc =>
    cases kc <;> simp only [SwimDocument.key] <;>
      first
      | exact Or.inl rfl
      | exact Or.inl trivial
      | (split_ifs <;> exact Or.inl rfl)

/-- The fall-through delivery of the key to the active window preserves
the handle invariant. -/
theorem fallthrough_preserves_InterpInv (m1 : SwimDocManager) (k : DecodedKey)
    (h : InterpInv m1) :
    InterpInv { m1 with
      documents := Function.update m1.documents m1.active_window ((m1.documents m1.active_window).key k) } := by
  intro i hi
  dsimp only at hi ⊢
  by_cases hia : i = m1.active_window
  · rw [hia] at hi ⊢
    rw [Function.update_same] at hi
    rcases key_status_cases (m1.documents m1.active_window) k with hsame | ⟨hAw, _⟩
    · exact h m1.active_window (hsame ▸ hi)
    · exact h m1.active_window (Or.inr hAw)
  · rw [Function.update_noteq hia] at hi
    exact h i hi

/-- Replacing the active window with a document that is neither executing
nor awaiting input preserves the handle invariant. -/
theorem InterpInv_update_doc (m : SwimDocManager) (d : SwimDocument)
    (hinv : InterpInv m)
    (hd : d.window_status ≠ WindowStatus.ExecutingFile ∧
          d.window_status ≠ WindowStatus.AwaitingInput) :
    InterpInv { m with documents := Function.update m.documents m.active_window d } := by
  intro i hi
  dsimp only at hi ⊢
  by_cases hia : i = m.active_window
  · subst hia
    rw [Function.update_same] at hi
    rcases hi with hi | hi
    · exact absurd hi hd.1
    · exact absurd hi hd.2
  · rw [Function.update_noteq hia] at hi
    exact hinv i hi

/-- Replacing the active window's document and giving it a fresh
interpreter handle preserves the handle invariant. -/
theorem InterpInv_update_doc_interp (m : SwimDocManager) (d : SwimDocument)
    (ip : Interpreter) (hinv : InterpInv m) :
    InterpInv { m with documents := Function.update m.documents m.active_window d,
                       interpreters := Function.update m.interpreters m.active_window (some ip) } := by
  intro i hi
  dsimp only at hi ⊢
  by_cases hia : i = m.active_window
  · subst hia
    rw [Function.update_same]
    rfl
  · rw [Function.update_noteq hia]
    rw [Function.update_noteq hia] at hi
    exact hinv i hi

/-- The broadcast save keeps every window's status. -/
theorem saveAll_status (docs : Fin 4 → SwimDocument) (n c : String) (i : Fin 4) :
    ((saveAll docs n c) i).window_status = (docs i).window_status := by
  unfold saveAll
  split <;> rfl

/-- Status component of a preserved window frame. -/
theorem docFrame_status {d d' : SwimDocument} (h : docFrame d = docFrame d') :
    d.window_status = d'.window_status :=
  congrArg (fun t => t.2.2.2.2.2.1) h

/-- The modal handler leaves every window's status and every interpreter
slot unchanged. -/
theorem fci_frame (m : SwimDocManager) (k : DecodedKey) :
    (∀ i : Fin 4, ((m.file_creation_input k).1.documents i).window_status =
      (m.documents i).window_status) ∧
    (m.file_creation_input k).1.interpreters = m.interpreters := by
  constructor
  · intro i
    cases k with
    | RawKey kc => rfl
    | Unicode c =>
      simp only [SwimDocManager.file_creation_input]
      split_ifs <;>
        first
        | rfl
        | exact docFrame_status (createLoop_frame _ _ _ _)
  · cases k with
    | RawKey kc => rfl
    | Unicode c =>
      simp only [SwimDocManager.file_creation_input]
      split_ifs <;> rfl

/-- Possible results of the `'e'` branch. -/
theorem keyE_cases (m m' : SwimDocManager) (h : keyE m = some m') :
    m' = m ∨
    ∃ d : SwimDocument, d.window_status = WindowStatus.EditingFile ∧
      m' = { m with documents := Function.update m.documents m.active_window d } := by
  simp only [keyE] at h
  split_ifs at h
  · exact Or.inl (Option.some.inj h).symm
  · split at h
    · exact Option.noConfusion h
    · exact Or.inr ⟨_, rfl, (Option.some.inj h).symm⟩

/-- Possible results of the `'r'` branch. -/
theorem keyR_cases (m m' : SwimDocManager) (b : Bool) (h : keyR m = some (m', b)) :
    m' = m ∨
    (∃ d : SwimDocument, d.window_status = WindowStatus.DisplayingFiles ∧
       m' = { m with documents := Function.update m.documents m.active_window d }) ∨
    (∃ (d : SwimDocument) (ip : Interpreter),
       m' = { m with documents := Function.update m.documents m.active_window d,
                     interpreters := Function.update m.interpreters m.active_window (some ip) }) := by
  simp only [keyR] at h
  split_ifs at h
  · exact Or.inl (congrArg Prod.fst (Option.some.inj h)).symm
  · refine Or.inr (Or.inl ⟨{ m.documents m.active_window with
        program_running := false,
        window_status := WindowStatus.DisplayingFiles }, rfl, ?_⟩)
    exact (congrArg Prod.fst (Option.some.inj h)).symm
  · split at h
    · exact Option.noConfusion h
    · exact Or.inr (Or.inr ⟨_, _, (congrArg Prod.fst (Option.some.inj h)).symm⟩)

/-- F6 keeps every interpreter slot, puts the active window in
`DisplayingFiles` and keeps every other window's status. -/
theorem keyF6_status (m : SwimDocManager) :
    (keyF6 m).interpreters = m.interpreters ∧
    (keyF6 m).active_window = m.active_window ∧
    ((keyF6 m).documents m.active_window).window_status = WindowStatus.DisplayingFiles ∧
    ∀ i : Fin 4, i ≠ m.active_window →
      ((keyF6 m).documents i).window_status = (m.documents i).window_status := by
  simp only [keyF6]
  split_ifs with hsave
  · refine ⟨rfl, rfl, ?_, ?_⟩
    · dsimp only
      rw [saveAll_status, Function.update_same]
    · intro i hi
      dsimp only
      rw [saveAll_status, Function.update_noteq hi]
  · refine ⟨rfl, rfl, ?_, ?_⟩
    · dsimp only
      rw [Function.update_same]
    · intro i hi
      dsimp only
      rw [Function.update_noteq hi]

/-- One tick preserves the handle invariant of the ticked window. -/
theorem tick_inv (doc : SwimDocument) (ip : Option Interpreter) (r : TickStatus)
    (h : (doc.window_status = WindowStatus.ExecutingFile ∨
          doc.window_status = WindowStatus.AwaitingInput) → ip.isSome = true) :
    ((doc.tick ip r).1.window_status = WindowStatus.ExecutingFile ∨
     (doc.tick ip r).1.window_status = WindowStatus.AwaitingInput) →
    (doc.tick ip r).2.isSome = true := by
  intro hs
  cases ip with
  | none =>
    simp only [SwimDocument.tick] at hs ⊢
    split_ifs at hs ⊢ <;> exact h hs
  | some ipv =>
    cases r <;> simp only [SwimDocument.tick] at hs ⊢ <;>
      split_ifs at hs ⊢ <;> simp_all

/-- `update` with an empty runnable set only refreshes the highlight
flags. -/
theorem update_empty (m : SwimDocManager) (r : TickStatus) (h : ¬ 0 < rrCount m) :
    m.update r = { m with documents := activeSet m } := by
  simp only [SwimDocManager.update]
  rw [runnableOf_active_irrelevant]
  rw [if_neg (show ¬ 0 < (runnableOf m.documents).length from h)]

/-- Interpreter slots after an `update` with a non-empty runnable set. -/
theorem update_spec_interp (m : SwimDocManager) (r : TickStatus) (h : 0 < rrCount m) :
    (∀ i : Fin 4, i ≠ rrPick m → (m.update r).interpreters i = m.interpreters i) ∧
    (m.update r).interpreters (rrPick m) =
      ((activeSet m (rrPick m)).tick (m.interpreters (rrPick m)) r).2 := by
  have hact := runnableOf_active_irrelevant m
  have hupd : m.update r =
      { incTick { m with documents := activeSet m } (rrPick m) with
          documents := Function.update (activeSet m) (rrPick m)
            (((activeSet m (rrPick m)).tick (m.interpreters (rrPick m)) r).1),
          interpreters := Function.update m.interpreters (rrPick m)
            (((activeSet m (rrPick m)).tick (m.interpreters (rrPick m)) r).2),
          next_tick := (m.next_tick + 1) % rrCount m } := by
    simp only [SwimDocManager.update, rrPick, rrCount, runnable]
    rw [hact, if_pos (show 0 < (runnableOf m.documents).length from h)]
  constructor
  · intro i hi
    rw [hupd]
    exact Function.update_noteq hi _ _
  · rw [hupd]
    exact Function.update_same _ _ _

/-- An `update` cycle preserves the handle invariant. -/
theorem update_preserves_InterpInv (m : SwimDocManager) (r : TickStatus)
    (hinv : InterpInv m) : InterpInv (m.update r) := by
  by_cases h : 0 < rrCount m
  · obtain ⟨-, -, -, hne, hw⟩ := update_spec m r h
    obtain ⟨hipne, hipw⟩ := update_spec_interp m r h
    intro i hi
    by_cases hiw : i = rrPick m
    · rw [hiw] at hi ⊢
      rw [hw] at hi
      rw [hipw]
      refine tick_inv _ _ r ?_ hi
      intro hs
      exact hinv (rrPick m) hs
    · rw [hne i hiw] at hi
      rw [hipne i hiw]
      exact hinv i hi
  · rw [update_empty m r h]
    intro i hi
    dsimp only at hi ⊢
    exact hinv i hi

/-- A key event preserves the handle invariant. -/
theorem key_preserves_InterpInv {m m' : SwimDocManager} {k : DecodedKey}
    (hk : m.key k = some m') (hinv : InterpInv m) : InterpInv m' := by
  by_cases hcf : m.creating_file = true
  · rw [SwimDocManager.key.eq_def, if_pos hcf] at hk
    obtain rfl := (Option.some.inj hk).symm
    obtain ⟨hst, hip⟩ := fci_frame m k
    intro i hi
    rw [hst i] at hi
    rw [hip]
    exact hinv i hi
  · -- helper for the shapes m' takes
    have hfall : ∀ m1 : SwimDocManager, InterpInv m1 →
        InterpInv { m1 with
          documents := Function.update m1.documents m1.active_window ((m1.documents m1.active_window).key k) } :=
      fun m1 h1 => fallthrough_preserves_InterpInv m1 k h1
    rw [SwimDocManager.key.eq_def, if_neg hcf] at hk
    cases k with
    | RawKey kc =>
      cases kc <;> dsimp only at hk <;> obtain rfl := (Option.some.inj hk).symm <;>
        first
        | exact hfall { m with active_window := 0 } hinv
        | exact hfall { m with active_window := 1 } hinv
        | exact hfall { m with active_window := 2 } hinv
        | exact hfall { m with active_window := 3 } hinv
        | exact hfall { m with creating_file := true, new_filename := fun _ => nul, new_filename_length := 0 } hinv
        | exact hfall m hinv
        | skip
      -- the remaining goal is the F6 branch
      apply hfall (keyF6 m)
      obtain ⟨hip, -, hact, hoth⟩ := keyF6_status m
      intro i hi
      rw [hip]
      by_cases hia : i = m.active_window
      · rw [hia, hact] at hi
        rcases hi with hi | hi <;> cases hi
      · rw [hoth i hia] at hi
        exact hinv i hi
    | Unicode c =>
      dsimp only at hk
      by_cases hdf : (m.documents m.active_window).window_status = WindowStatus.DisplayingFiles
      · rw [if_pos hdf] at hk
        by_cases hce : c = 'e'
        · rw [if_pos hce] at hk
          cases hke : keyE m with
          | none => rw [hke] at hk; exact Option.noConfusion hk
          | some me =>
            rw [hke] at hk
            simp only [Option.map_some'] at hk
            have hm : m' = me := (Option.some.inj hk).symm
            rcases keyE_cases m me hke with hme | ⟨d, hd, hme⟩
            · rw [hm, hme]
              exact hinv
            · rw [hm, hme]
              apply InterpInv_update_doc m d hinv
              rw [hd]
              exact ⟨fun hh => WindowStatus.noConfusion hh, fun hh => WindowStatus.noConfusion hh⟩
        · rw [if_neg hce] at hk
          by_cases hcr : c = 'r'
          · rw [if_pos hcr] at hk
            cases hkr : keyR m with
            | none => rw [hkr] at hk; exact Option.noConfusion hk
            | some mrb =>
              rw [hkr] at hk
              have hinv' : InterpInv mrb.1 := by
                rcases keyR_cases m mrb.1 mrb.2 (by rw [hkr]) with rfl | ⟨d, hd, heq⟩ | ⟨d, ip, heq⟩
                · exact hinv
                · rw [heq]
                  apply InterpInv_update_doc m d hinv
                  rw [hd]
                  exact ⟨fun hh => WindowStatus.noConfusion hh, fun hh => WindowStatus.noConfusion hh⟩
                · rw [heq]
                  exact InterpInv_update_doc_interp m d ip hinv
              rcases mrb with ⟨mr, b⟩
              cases b <;> dsimp only at hk <;> obtain rfl := (Option.some.inj hk).symm
              · exact hfall mr hinv'
              · exact hinv'
          · rw [if_neg hcr] at hk
            dsimp only at hk
            obtain rfl := (Option.some.inj hk).symm
            exact hfall m hinv
      · rw [if_neg hdf] at hk
        dsimp only at hk
        obtain rfl := (Option.some.inj hk).symm
        exact hfall m hinv

/-- C5 (amended): in every state reachable from startup, a window in
`ExecutingFile` or `AwaitingInput` status holds an interpreter handle.
(The claimed converse — that a handle exists only in those statuses, and
in particular that F6 drops the handle — is false; see the
counterexample.) -/
theorem c5_interp_invariant (m : SwimDocManager) (h : Reachable m) : InterpInv m := by
  induction h with
  | init => decide
  | key hr hk ih => exact key_preserves_InterpInv hk ih
  | update r hr ih => exact update_preserves_InterpInv _ r ih

/-- The startup state after pressing `'r'` (run the highlighted file in
window 0). -/
def c5Stage1 : SwimDocManager :=
  (SwimDocManager.default.key (DecodedKey.Unicode 'r')).getD SwimDocManager.default

/-- The state after then pressing F6 (close the window). -/
def c5State : SwimDocManager :=
  (c5Stage1.key (DecodedKey.RawKey KeyCode.F6)).getD SwimDocManager.default

/-- C5 counterexample: the state reached from startup by pressing `'r'`
then F6 still holds an interpreter handle in window 0 although the
window's status is `DisplayingFiles` — refuting the claimed equivalence
(handle iff status in `ExecutingFile`/`AwaitingInput`) and in particular
refuting that F6 drops the handle. -/
theorem c5_counterexample :
    Reachable c5State ∧
    (c5State.interpreters 0).isSome = true ∧
    (c5State.documents 0).window_status = WindowStatus.DisplayingFiles := by
  have h1 : SwimDocManager.default.key (DecodedKey.Unicode 'r') = some c5Stage1 := rfl
  have h2 : c5Stage1.key (DecodedKey.RawKey KeyCode.F6) = some c5State := rfl
  exact ⟨Reachable.key (Reachable.key Reachable.init h1) h2, by decide, by decide⟩

theorem c5_interp_invariant_witness :
    Reachable c5Stage1 ∧
    ((c5Stage1.documents 0).window_status = WindowStatus.ExecutingFile ∨
     (c5Stage1.documents 0).window_status = WindowStatus.AwaitingInput) ∧
    (c5Stage1.interpreters 0).isSome = true := by
  have h1 : SwimDocManager.default.key (DecodedKey.Unicode 'r') = some c5Stage1 := rfl
  exact ⟨Reachable.key Reachable.init h1,
    Or.inl (by decide),
    c5_interp_invariant c5Stage1 (Reachable.key Reachable.init h1) 0 (Or.inl (by decide))⟩
